import Mathlib

/-!
Verification of the "not-a-car" trip-planning backend pipeline.

This file gives a shallow embedding, in Lean 4, of the core pipeline of the
repository: the in-memory location gazetteer (`src/geocoding/cache.py`), the
precomputed route cache (`src/routing/route_cache.py`), the cached route
candidate generator with its Google-polyline codec
(`src/routing/route_generator.py`), the LLM fallback chain
(`src/llm/fallback.py`, `src/llm/mock_client.py`) and the extraction response
parsing step (`src/llm/service.py`).

Modelling conventions:
- Python `float` values are modelled as rationals (`ℚ`); Python `int` as `ℤ`
  or `ℕ`.  Python arithmetic on these values is exact in the source paths the
  theorems exercise, except for the square root in the geometric fallback
  estimate, which is modelled by a rational approximation (`qSqrt`) whose
  value no theorem depends on.
- Python `dict`s are modelled as insertion-ordered association lists, which
  matches CPython's guaranteed iteration order; `dict` writes update in place
  and appends new keys at the end.
- Python's stable `sorted(..., key=..., reverse=...)` is modelled by a stable
  insertion sort (`sortOnDesc` / `sortOnAsc`).
- Fallible Python code is modelled with `Option`/`Except`; an `Except` error
  value models an exception propagating out of the modelled function.
-/

/-! ## Python-style primitive helpers -/

/-- Python `str.lower()` restricted to ASCII case mapping; the repository's
data contains only ASCII letters and Japanese text, which `str.lower()`
leaves unchanged, so ASCII lowering is a faithful model. -/
def pyLower (s : String) : String :=
  ⟨s.data.map Char.toLower⟩

/-- Python's substring containment `needle in hay` on lists of characters. -/
def listIn (needle hay : List Char) : Bool :=
  match hay with
  | [] => needle.isEmpty
  | _ :: t => needle.isPrefixOf hay || listIn needle t

/-- Python's substring containment `needle in hay` for strings. -/
def pyIn (needle hay : String) : Bool :=
  listIn needle.data hay.data

/-- Python `int(q)` on a nonnegative value: truncation toward zero. -/
def pyInt (q : ℚ) : ℤ :=
  if q < 0 then -⌊-q⌋ else ⌊q⌋

/-- Python `round(q)` (banker's rounding: round half to even). -/
def pyRound (q : ℚ) : ℤ :=
  let f := ⌊q⌋
  let r := q - (f : ℚ)
  if r < 1/2 then f
  else if r > 1/2 then f + 1
  else if f % 2 = 0 then f else f + 1

/-- Python `round(q, 1)`: rounding to one decimal digit. -/
def pyRound1 (q : ℚ) : ℚ :=
  (pyRound (q * 10) : ℚ) / 10

/-! ## Insertion-ordered dictionaries (CPython `dict` semantics) -/

/-- Lookup in an insertion-ordered association list (`d.get(k)` / `d[k]`). -/
def dictGet {α : Type} (d : List (String × α)) (k : String) : Option α :=
  match d with
  | [] => none
  | (k', v) :: t => if k' = k then some v else dictGet t k

/-- Lookup with a default (`d.get(k, dflt)`). -/
def dictGetD {α : Type} (d : List (String × α)) (k : String) (dflt : α) : α :=
  (dictGet d k).getD dflt

/-- Membership test (`k in d`). -/
def dictMem {α : Type} (d : List (String × α)) (k : String) : Bool :=
  (dictGet d k).isSome

/-- Assignment `d[k] = v`: update in place if present, else append (CPython
preserves insertion order and appends new keys at the end). -/
def dictSet {α : Type} (d : List (String × α)) (k : String) (v : α) :
    List (String × α) :=
  match d with
  | [] => [(k, v)]
  | (k', v') :: t => if k' = k then (k, v) :: t else (k', v') :: dictSet t k v

/-- The idiom `if k not in d: d[k] = []` followed by `d[k].append(x)`. -/
def dictAppend (d : List (String × List String)) (k : String) (x : String) :
    List (String × List String) :=
  dictSet d k (dictGetD d k [] ++ [x])

/-! ## Stable sorting (Python `sorted`) -/

/-- Stable insert for descending order by key: the new element goes before the
first element with a strictly smaller key, hence after all earlier elements
with an equal key. -/
def insertDesc {α : Type} (key : α → ℚ) (x : α) : List α → List α
  | [] => [x]
  | y :: ys => if key y < key x then x :: y :: ys else y :: insertDesc key x ys

/-- Python `sorted(l, key=key, reverse=True)`: stable descending sort. -/
def sortOnDesc {α : Type} (key : α → ℚ) (l : List α) : List α :=
  l.foldr (insertDesc key) []

/-- Stable insert for ascending order by key. -/
def insertAsc {α : Type} (key : α → ℤ) (x : α) : List α → List α
  | [] => [x]
  | y :: ys => if key x ≤ key y then x :: y :: ys else y :: insertAsc key x ys

/-- Python `sorted(l, key=key)`: stable ascending sort. -/
def sortOnAsc {α : Type} (key : α → ℤ) (l : List α) : List α :=
  l.foldr (insertAsc key) []

/-! ## Route distance cache (`src/routing/route_cache.py`) -/

/-- `CachedRoute`: one precomputed route entry. -/
structure CachedRoute where
  origin_id : String
  destination_id : String
  distance_km : ℚ
  duration_minutes : ℤ
  polyline : String
  waypoints : List (ℚ × ℚ)
  deriving Repr, DecidableEq

/-- The in-memory state of `RouteCache`: the `"origin:destination" → route`
dictionary. -/
structure RouteCache where
  routes : List (String × CachedRoute)
  deriving Repr, DecidableEq

namespace RouteCache

/-- `RouteCache._make_key`: `f"{origin_id}:{destination_id}"`. -/
def make_key (origin_id destination_id : String) : String :=
  origin_id ++ ":" ++ destination_id

/-- `RouteCache.get`: exact-key lookup. -/
def get (rc : RouteCache) (origin_id destination_id : String) :
    Option CachedRoute :=
  dictGet rc.routes (make_key origin_id destination_id)

/-- `RouteCache.get_from_default_origin`: lookup from the fixed default
origin `"tokyo_station"`. -/
def get_from_default_origin (rc : RouteCache) (destination_id : String) :
    Option CachedRoute :=
  get rc "tokyo_station" destination_id

end RouteCache

/-! ## Location gazetteer (`src/geocoding/models.py`, `src/geocoding/cache.py`) -/

/-- `LocationType` enumeration. -/
inductive LocationType where
  | city | town | station | onsen | michinoeki | camp | rv_park | sa_pa
  | scenic | shrine_temple | park | lake | mountain | beach | other
  deriving Repr, DecidableEq

/-- `Location`: one gazetteer entry (the fields the pipeline reads; the
purely descriptive RAG fields are omitted as they are never consulted by the
embedded operations). -/
structure Location where
  id : String
  name : String
  lat : ℚ
  lng : ℚ
  type : LocationType
  prefecture : String
  aliases : List String
  tags : List String
  facilities : List String
  ev_charging : Bool
  noise_level : String
  scenery_score : ℚ
  deriving Repr, DecidableEq

/-- `SearchResult`: a scored search hit. -/
structure SearchResult where
  location : Location
  score : ℚ
  match_reasons : List String
  deriving Repr, DecidableEq

/-- The mutable state of `LocationCache`: the id table plus the four
inverted indexes and the `_loaded` flag.  The type index is keyed by the
`LocationType` value; it is modelled with the enum's string value as key to
reuse the string-keyed dictionary model (the enum is a `str` Enum in the
source and distinct variants have distinct values). -/
structure LocationCache where
  locations : List (String × Location)
  name_index : List (String × List String)
  type_index : List (String × List String)
  tag_index : List (String × List String)
  prefecture_index : List (String × List String)
  loaded : Bool
  deriving Repr, DecidableEq

/-- The string value of a `LocationType` (the `str` Enum value). -/
def LocationType.value : LocationType → String
  | .city => "city" | .town => "town" | .station => "station"
  | .onsen => "onsen" | .michinoeki => "michinoeki" | .camp => "camp"
  | .rv_park => "rv_park" | .sa_pa => "sa_pa" | .scenic => "scenic"
  | .shrine_temple => "shrine_temple" | .park => "park" | .lake => "lake"
  | .mountain => "mountain" | .beach => "beach" | .other => "other"

namespace LocationCache

/-- The freshly constructed, unloaded cache (`LocationCache.__init__`). -/
def empty : LocationCache :=
  ⟨[], [], [], [], [], false⟩

/-- `LocationCache._add_to_index`. -/
def add_to_index (c : LocationCache) (location : Location) : LocationCache :=
  let locations := dictSet c.locations location.id location
  let name_index := dictAppend c.name_index (pyLower location.name) location.id
  let name_index := location.aliases.foldl
    (fun idx al => dictAppend idx (pyLower al) location.id) name_index
  let type_index := dictAppend c.type_index location.type.value location.id
  let tag_index := location.tags.foldl
    (fun idx tag => dictAppend idx (pyLower tag) location.id) c.tag_index
  let tag_index := location.facilities.foldl
    (fun idx facility => dictAppend idx (pyLower facility) location.id) tag_index
  let prefecture_index :=
    dictAppend c.prefecture_index location.prefecture location.id
  ⟨locations, name_index, type_index, tag_index, prefecture_index, c.loaded⟩

/-- The outcome of reading and JSON-decoding the cache file, as seen by
`LocationCache.load`: the file may be missing, the JSON may fail to decode
(or not be an object), or it yields a `locations` array whose entries each
either validate as a `Location` (`some`) or fail pydantic validation
(`none`). -/
inductive LoadSource where
  | missing
  | malformed
  | entries (l : List (Option Location))
  deriving Repr, DecidableEq

/-- The loop `for loc_data in locations: self._add_to_index(Location(**loc_data))`:
entries are added one by one; the first invalid entry raises, aborting the
loop with the earlier entries already indexed. -/
def addEntries (c : LocationCache) : List (Option Location) →
    LocationCache × Bool
  | [] => (c, true)
  | none :: _ => (c, false)
  | some loc :: rest => addEntries (add_to_index c loc) rest

/-- `LocationCache.load`. -/
def load (c : LocationCache) (src : LoadSource) : LocationCache × Bool :=
  if c.loaded then (c, true)
  else
    match src with
    | .missing => (c, false)
    | .malformed => (c, false)
    | .entries l =>
      match addEntries c l with
      | (c', true) => ({ c' with loaded := true }, true)
      | (c', false) => (c', false)

/-- `LocationCache.get_by_id` (after `_ensure_loaded`; loading is modelled
separately, so lookups operate on the already-built state). -/
def get_by_id (c : LocationCache) (location_id : String) : Option Location :=
  dictGet c.locations location_id

/-- `LocationCache.get_by_name`: exact case-insensitive lookup returning the
first indexed id. -/
def get_by_name (c : LocationCache) (name : String) : Option Location :=
  let ids := dictGetD c.name_index (pyLower name) []
  match ids with
  | [] => none
  | id0 :: _ => dictGet c.locations id0

/-- `LocationCache.get_all`: the values of the id table in insertion order. -/
def get_all (c : LocationCache) : List Location :=
  c.locations.map Prod.snd

/-- The running `scores` dictionary of `LocationCache.search`:
`id -> (score, reasons)`. -/
abbrev ScoreMap := List (String × (ℚ × List String))

/-- The nested `add_score` helper of `LocationCache.search`. -/
def add_score (scores : ScoreMap) (loc_id : String) (score : ℚ)
    (reason : String) : ScoreMap :=
  let scores := if dictMem scores loc_id then scores
    else dictSet scores loc_id (0, [])
  let current := dictGetD scores loc_id (0, [])
  dictSet scores loc_id (current.1 + score, current.2 ++ [reason])

/-- Fold `add_score` over a list of ids with a fixed score and reason. -/
def addScoreAll (scores : ScoreMap) (ids : List String) (score : ℚ)
    (reason : String) : ScoreMap :=
  ids.foldl (fun m loc_id => add_score m loc_id score reason) scores

/-- The place-name block of `search` for one filter term: exact matches get
+15; substring matches get +8 unless the id already had an exact match for
this term. -/
def placeTermScores (c : LocationCache) (scores : ScoreMap) (place : String) :
    ScoreMap :=
  let place_lower := pyLower place
  let exactIds := dictGetD c.name_index place_lower []
  let scores := if dictMem c.name_index place_lower then
      addScoreAll scores exactIds 15 ("地名完全一致: " ++ place)
    else scores
  c.name_index.foldl (fun m entry =>
    if pyIn place_lower entry.1 || pyIn entry.1 place_lower then
      entry.2.foldl (fun m' loc_id =>
        if loc_id ∈ exactIds then m'
        else add_score m' loc_id 8 ("地名部分一致: " ++ place)) m
    else m) scores

/-- The static facility-type → location-type keyword table of `search`,
in source order. -/
def type_mapping : List (String × LocationType) :=
  [("温泉", .onsen), ("道の駅", .michinoeki), ("キャンプ場", .camp),
   ("rvパーク", .rv_park), ("サービスエリア", .sa_pa), ("sa", .sa_pa),
   ("pa", .sa_pa), ("神社", .shrine_temple), ("寺", .shrine_temple),
   ("公園", .park), ("湖", .lake), ("山", .mountain), ("海", .beach),
   ("ビーチ", .beach)]

/-- The facility-type block of `search` for one filter term: keyword-mapped
location types get +10 per mapping hit, tag substring matches get +5. -/
def facilityTermScores (c : LocationCache) (scores : ScoreMap)
    (facility_type : String) : ScoreMap :=
  let ft_lower := pyLower facility_type
  let scores := type_mapping.foldl (fun m entry =>
    if pyIn entry.1 ft_lower || pyIn ft_lower entry.1 then
      addScoreAll m (dictGetD c.type_index entry.2.value [])
        10 ("施設種別: " ++ facility_type)
    else m) scores
  c.tag_index.foldl (fun m entry =>
    if pyIn ft_lower entry.1 || pyIn entry.1 ft_lower then
      addScoreAll m entry.2 5 ("タグ: " ++ facility_type)
    else m) scores

/-- The amenity block of `search` for one filter term: tag substring matches
get +3; terms mentioning charging give +5 to every EV-charging location.
(The `amenity_mapping` table in the source is defined but never read.) -/
def amenityTermScores (c : LocationCache) (scores : ScoreMap)
    (amenity : String) : ScoreMap :=
  let am_lower := pyLower amenity
  let scores := c.tag_index.foldl (fun m entry =>
    if pyIn am_lower entry.1 || pyIn entry.1 am_lower then
      addScoreAll m entry.2 3 ("設備: " ++ amenity)
    else m) scores
  if pyIn "充電" am_lower || pyIn "ev" am_lower then
    c.locations.foldl (fun m entry =>
      if entry.2.ev_charging then add_score m entry.1 5 "EV充電設備あり"
      else m) scores
  else scores

/-- The atmosphere block of `search` for one filter term. -/
def atmosphereTermScores (c : LocationCache) (scores : ScoreMap)
    (atm : String) : ScoreMap :=
  let atm_lower := pyLower atm
  c.locations.foldl (fun m entry =>
    let loc := entry.2
    let m := if pyIn "静か" atm_lower && (loc.noise_level == "low") then
        add_score m entry.1 4 "静かな環境"
      else m
    let m := if (pyIn "景色" atm_lower || pyIn "眺め" atm_lower)
        && decide (loc.scenery_score ≥ 4) then
        add_score m entry.1 3 "景観が良い"
      else m
    if pyIn "自然" atm_lower && decide (loc.type ∈
        [LocationType.camp, .lake, .mountain, .scenic, .park]) then
      add_score m entry.1 3 "自然豊か"
    else m) scores

/-- `LocationCache.search`.  The optional keyword arguments are modelled by
their truthiness: `None` and the empty list (resp. empty string for
`prefecture`) behave identically in the source, so empty stands for both. -/
def search (c : LocationCache) (place_names facility_types amenities
    atmosphere : List String) (prefecture : String) (limit : ℕ) :
    List SearchResult :=
  let scores : ScoreMap := []
  let scores := if place_names.isEmpty then scores
    else place_names.foldl (placeTermScores c) scores
  let scores := if facility_types.isEmpty then scores
    else facility_types.foldl (facilityTermScores c) scores
  let scores := if amenities.isEmpty then scores
    else amenities.foldl (amenityTermScores c) scores
  let scores := if atmosphere.isEmpty then scores
    else atmosphere.foldl (atmosphereTermScores c) scores
  let scores := if prefecture = "" then scores
    else
      let pref_ids := dictGetD c.prefecture_index prefecture []
      scores.filter (fun entry => entry.1 ∈ pref_ids)
  let sorted_results := sortOnDesc (fun entry => entry.2.1) scores
  (sorted_results.take limit).filterMap (fun entry =>
    (dictGet c.locations entry.1).map (fun loc =>
      ⟨loc, entry.2.1, entry.2.2⟩))

end LocationCache

/-! ## Extraction schemas (`src/llm/schemas.py`, `src/routing/schemas.py`) -/

/-- `WaypointType` enumeration. -/
inductive WaypointType where
  | required | optional | final
  deriving Repr, DecidableEq

/-- `ExtractedWaypoint`. -/
structure ExtractedWaypoint where
  name : String
  type : WaypointType
  order : ℤ
  purpose : Option String
  duration_hint : Option String
  deriving Repr, DecidableEq

/-- `DestinationExtraction`. -/
structure DestinationExtraction where
  waypoints : List ExtractedWaypoint
  facility_types : List String
  amenities : List String
  atmosphere : List String
  activities : List String
  time_constraints : Option String
  distance_preference : Option String
  original_query : String
  deriving Repr, DecidableEq

/-- The `place_names` property of `DestinationExtraction`. -/
def DestinationExtraction.place_names (e : DestinationExtraction) :
    List String :=
  e.waypoints.map (·.name)

/-- `Coordinates` (`src/routing/schemas.py`). -/
structure Coordinates where
  latitude : ℚ
  longitude : ℚ
  deriving Repr, DecidableEq

/-- `RouteFeatures` (one route candidate).  `eta` is modelled in minutes on
an abstract clock: `eta = current_time + timedelta(minutes=duration)`. -/
structure RouteFeatures where
  id : String
  destination_name : String
  eta : ℤ
  distance_km : ℚ
  duration_minutes : ℤ
  toll_fee : ℤ
  charging_available : Bool
  noise_level : String
  scenery_score : ℚ
  nearby_facilities : List String
  polyline : Option String
  deriving Repr, DecidableEq

/-! ## Google polyline codec (`CachedRouteGenerator._encode_polyline` /
`_decode_polyline`) -/

/-- The chunk loop of `encode_value` on the zigzag-transformed value:
emit 5-bit groups with the continuation bit, offset by 63. -/
def encodeNatChunks (u : ℕ) : List Char :=
  if 0x20 ≤ u then
    Char.ofNat ((0x20 ||| (u &&& 0x1f)) + 63) :: encodeNatChunks (u >>> 5)
  else [Char.ofNat (u + 63)]
termination_by u
decreasing_by
  simp only [Nat.shiftRight_eq_div_pow]
  exact Nat.div_lt_self (by omega) (by norm_num)

/-- The sign transform of `encode_value`:
`value = ~(value << 1) if value < 0 else value << 1` (on Python's unbounded
ints, `x << 1` is `2*x` and `~y` is `-y-1`). -/
def zigzag (v : ℤ) : ℕ :=
  (if v < 0 then -(2 * v) - 1 else 2 * v).toNat

/-- `encode_value` of `_encode_polyline`. -/
def encode_value (v : ℤ) : List Char :=
  encodeNatChunks (zigzag v)

/-- The per-coordinate loop of `_encode_polyline`, carrying the previous
scaled integers. -/
def encGo : List (ℚ × ℚ) → ℤ → ℤ → List Char
  | [], _, _ => []
  | p :: tl, prev_lat, prev_lng =>
    let lat_int := pyRound (p.1 * 100000)
    let lng_int := pyRound (p.2 * 100000)
    encode_value (lat_int - prev_lat) ++ encode_value (lng_int - prev_lng) ++
      encGo tl lat_int lng_int

/-- `CachedRouteGenerator._encode_polyline`. -/
def encode_polyline (coords : List (ℚ × ℚ)) : String :=
  ⟨encGo coords 0 0⟩

/-- One inner `while True` chunk-reading loop of `_decode_polyline`;
`none` models the `IndexError` raised when the string ends mid-chunk. -/
def readVarint : List Char → ℕ → ℕ → Option (ℕ × List Char)
  | [], _, _ => none
  | ch :: rest, shift, acc =>
    if ch.toNat - 63 < 0x20 then
      some (acc ||| (((ch.toNat - 63) &&& 0x1f) <<< shift), rest)
    else readVarint rest (shift + 5)
      (acc ||| (((ch.toNat - 63) &&& 0x1f) <<< shift))

/-- The delta sign decoding `~(result >> 1) if result & 1 else result >> 1`. -/
def unzigzag (u : ℕ) : ℤ :=
  if u &&& 1 = 1 then -((u >>> 1 : ℕ) : ℤ) - 1 else ((u >>> 1 : ℕ) : ℤ)

/-- The outer `while index < len(encoded)` loop of `_decode_polyline`,
carrying the running scaled integers; `none` models an `IndexError`.  The
fuel argument keeps the recursion structural; callers supply more than the
input length, and each iteration consumes at least two characters, so the
fuel never runs out on the inputs the source can reach. -/
def decodeStep (next : List Char → ℤ → ℤ → Option (List (ℚ × ℚ)))
    (chars : List Char) (lat lng : ℤ) : Option (List (ℚ × ℚ)) :=
  match chars with
  | [] => some []
  | c :: cs =>
    match readVarint (c :: cs) 0 0 with
    | none => none
    | some (u1, r1) =>
      match readVarint r1 0 0 with
      | none => none
      | some (u2, r2) =>
        match next r2 (lat + unzigzag u1) (lng + unzigzag u2) with
        | none => none
        | some tl => some ((((lat + unzigzag u1 : ℤ) : ℚ) / 100000,
            ((lng + unzigzag u2 : ℤ) : ℚ) / 100000) :: tl)

/-- The fuelled iteration of `decodeStep`. -/
def decodeLoop : ℕ → List Char → ℤ → ℤ → Option (List (ℚ × ℚ))
  | 0, _, _, _ => none
  | fuel + 1, chars, lat, lng => decodeStep (decodeLoop fuel) chars lat lng

/-- `CachedRouteGenerator._decode_polyline`; `none` models an `IndexError`
on a malformed string. -/
def decode_polyline (encoded : String) : Option (List (ℚ × ℚ)) :=
  decodeLoop (encoded.data.length + 1) encoded.data 0 0

/-- The decode-and-append loop of `_combine_polylines`: decode every leg,
drop a leading point equal to the accumulated last point, and extend;
`Except.error` models an `IndexError` propagating from the decoder. -/
def decodeAllStep (next : List (ℚ × ℚ) → Except Unit (List (ℚ × ℚ)))
    (p : String) (acc : List (ℚ × ℚ)) : Except Unit (List (ℚ × ℚ)) :=
  match decode_polyline p with
  | none => .error ()
  | some coords =>
    if coords.isEmpty then next acc
    else
      next (acc ++ (if acc.getLast? = coords.head? then coords.tail
        else coords))

/-- The fold of `decodeAllStep` over the legs. -/
def decodeAllCoords : List String → List (ℚ × ℚ) →
    Except Unit (List (ℚ × ℚ))
  | [], acc => .ok acc
  | p :: rest, acc => decodeAllStep (decodeAllCoords rest) p acc

/-- `CachedRouteGenerator._combine_polylines`; the `Except` layer models the
`IndexError` a malformed leg polyline raises through this method. -/
def combine_polylines : List String → Except Unit (Option String)
  | [] => .ok none
  | [p] => .ok (some p)
  | p1 :: p2 :: rest =>
    match decodeAllCoords (p1 :: p2 :: rest) [] with
    | .error _ => .error ()
    | .ok all_coords =>
      if all_coords.isEmpty then .ok none
      else .ok (some (encode_polyline all_coords))

/-! ## Cached route generator (`src/routing/route_generator.py`) -/

/-- A rational stand-in for the Python float square root used in the
geometric fallback estimate (`(lat_diff ** 2 + lng_diff ** 2) ** 0.5`).
Float semantics are not representable exactly; this approximation is
executable and deterministic, and no theorem in this file depends on the
value it returns. -/
def qSqrt (q : ℚ) : ℚ :=
  if q ≤ 0 then 0
  else (Nat.sqrt (q.num.toNat * q.den * 10 ^ 12) : ℚ) / ((q.den * 10 ^ 6 : ℕ) : ℚ)

namespace CachedRouteGenerator

/-- `CachedRouteGenerator.ROUTE_IDS`. -/
def ROUTE_IDS : List String := ["A", "B", "C", "D", "E", "F", "G", "H"]

/-- `ROUTE_IDS[i] if i < len(ROUTE_IDS) else f"R{i}"`. -/
def routeIdFor (i : ℕ) : String :=
  match ROUTE_IDS.get? i with
  | some s => s
  | none => "R" ++ toString i

/-- `CachedRouteGenerator._find_location_by_name`: exact `get_by_name`
lookup, then the first location related by substring in either direction. -/
def find_location_by_name (c : LocationCache) (name : String) :
    Option Location :=
  match c.get_by_name name with
  | some loc => some loc
  | none =>
    c.get_all.find? (fun loc => pyIn name loc.name || pyIn loc.name name)

/-- `cached_route.polyline or None`. -/
def polyOrNone (p : String) : Option String :=
  if p = "" then none else some p

/-- `CachedRouteGenerator._calculate_segment`.  The `start` point is either
raw coordinates or a resolved location (`Coordinates | Location` in the
source); the result is `(distance_km, duration_minutes, polyline)`. -/
def calculate_segment (rc : RouteCache) (start : Coordinates ⊕ Location)
    (endLoc : Location) (start_location_id : Option String) :
    ℚ × ℤ × Option String :=
  let exactEntry := match start_location_id with
    | some sid => if sid = "" then none else rc.get sid endLoc.id
    | none => none
  match exactEntry with
  | some cached => (cached.distance_km, cached.duration_minutes,
      polyOrNone cached.polyline)
  | none =>
    match rc.get_from_default_origin endLoc.id with
    | some cached => (cached.distance_km, cached.duration_minutes,
        polyOrNone cached.polyline)
    | none =>
      let startPt := match start with
        | .inr loc => (loc.lat, loc.lng)
        | .inl coord => (coord.latitude, coord.longitude)
      let lat_diff := |endLoc.lat - startPt.1|
      let lng_diff := |endLoc.lng - startPt.2|
      let straight_distance := qSqrt (lat_diff ^ 2 + lng_diff ^ 2) * 111
      let distance_km := pyRound1 (straight_distance * (13 / 10))
      let duration_minutes := max (pyInt (distance_km / 50 * 60)) 15
      (distance_km, duration_minutes, none)

/-- `CachedRouteGenerator._create_route_feature` (the `match_reasons`
argument of the source is accepted and ignored there, so it is omitted). -/
def create_route_feature (rc : RouteCache) (route_id : String)
    (location : Location) (origin : Coordinates) (current_time : ℤ) :
    RouteFeatures :=
  let resolved : ℚ × ℤ × Option String :=
    match rc.get_from_default_origin location.id with
    | some cached => (cached.distance_km, cached.duration_minutes,
        polyOrNone cached.polyline)
    | none =>
      let lat_diff := |location.lat - origin.latitude|
      let lng_diff := |location.lng - origin.longitude|
      let straight_distance := qSqrt (lat_diff ^ 2 + lng_diff ^ 2) * 111
      let distance_km := pyRound1 (straight_distance * (13 / 10))
      let duration_minutes := max (pyInt (distance_km / 50 * 60)) 15
      (distance_km, duration_minutes, none)
  let distance_km := resolved.1
  let duration_minutes := resolved.2.1
  let eta := current_time + duration_minutes
  let toll_fee := if distance_km > 30 then pyInt (distance_km * 25) else 0
  let nearby_facilities := location.facilities
  let nearby_facilities :=
    if location.ev_charging && !(nearby_facilities.contains "EV充電") then
      nearby_facilities ++ ["EV充電"]
    else nearby_facilities
  ⟨route_id, location.name, eta, distance_km, duration_minutes, toll_fee,
    location.ev_charging, location.noise_level, location.scenery_score,
    nearby_facilities, resolved.2.2⟩

/-- `CachedRouteGenerator._generate_destination_candidates`. -/
def generate_destination_candidates (c : LocationCache) (rc : RouteCache)
    (origin : Coordinates) (extraction : DestinationExtraction) (count : ℕ)
    (current_time : ℤ) : List RouteFeatures :=
  let search_results := c.search extraction.place_names
    extraction.facility_types extraction.amenities extraction.atmosphere
    "" (count * 2)
  let search_results :=
    if search_results.length < count then
      let all_locations := c.get_all
      let existing_ids := search_results.map (·.location.id)
      let sorted_locations := sortOnDesc (fun loc => loc.scenery_score)
        (all_locations.filter (fun loc => decide (loc.id ∉ existing_ids)))
      search_results ++
        (sorted_locations.take (count - search_results.length)).map
          (fun loc => ⟨loc, loc.scenery_score, ["景観スコアによる補完"]⟩)
    else search_results
  let selected := search_results.take count
  selected.enum.map (fun entry =>
    create_route_feature rc (routeIdFor entry.1) entry.2.location origin
      current_time)

/-- The accumulator state of the per-waypoint segment loop in
`_generate_waypoint_routes`: total distance, total duration, collected leg
polylines, current position and current cached-location id. -/
structure SegAcc where
  total_distance : ℚ
  total_duration : ℤ
  polylines : List String
  current_pos : Coordinates ⊕ Location
  current_location_id : Option String

/-- One iteration of the `for wp in waypoints` loop in
`_generate_waypoint_routes`: a resolved waypoint contributes its segment,
an unresolved one contributes the fixed 10 km / 15 min estimate and clears
the cached-location id. -/
def waypointStep (c : LocationCache) (rc : RouteCache) (st : SegAcc)
    (wp : ExtractedWaypoint) : SegAcc :=
  match find_location_by_name c wp.name with
  | some wp_location =>
    let seg := calculate_segment rc st.current_pos wp_location
      st.current_location_id
    { total_distance := st.total_distance + seg.1
      total_duration := st.total_duration + seg.2.1
      polylines := st.polylines ++ (match seg.2.2 with
        | some p => [p]
        | none => [])
      current_pos := Sum.inr wp_location
      current_location_id := some wp_location.id }
  | none =>
    { st with
      total_distance := st.total_distance + 10
      total_duration := st.total_duration + 15
      current_location_id := none }

/-- The final-destination resolution of `_generate_waypoint_routes`:
`_find_location_by_name`, then a one-result `search` on the waypoint name as
both place name and facility type. -/
def resolveFinalWaypoint (c : LocationCache) (final_waypoint :
    ExtractedWaypoint) : Option Location :=
  match find_location_by_name c final_waypoint.name with
  | some loc => some loc
  | none =>
    match c.search [final_waypoint.name] [final_waypoint.name] [] [] "" 1 with
    | [] => none
    | r :: _ => some r.location

/-- `CachedRouteGenerator._generate_waypoint_routes`.  The `Except` layer
models the `IndexError` that `_combine_polylines` raises through this method
on a malformed cached polyline. -/
def generate_waypoint_routes (c : LocationCache) (rc : RouteCache)
    (origin : Coordinates) (extraction : DestinationExtraction)
    (current_time : ℤ) : Except Unit (List RouteFeatures) :=
  let waypoints := sortOnAsc (fun w => w.order) extraction.waypoints
  match waypoints with
  | [] => .ok []
  | w0 :: wrest =>
    let final_waypoint :=
      ((w0 :: wrest).find? (fun w => decide (w.type = .final))).getD
        ((w0 :: wrest).getLast (List.cons_ne_nil w0 wrest))
    match resolveFinalWaypoint c final_waypoint with
    | none =>
      .ok (generate_destination_candidates c rc origin extraction 4
        current_time)
    | some final_location =>
      let acc := (w0 :: wrest).foldl (waypointStep c rc)
        ⟨0, 0, [], Sum.inl origin, some "tokyo_station"⟩
      let eta := current_time + acc.total_duration
      let toll_fee := if acc.total_distance > 30 then
          pyInt (acc.total_distance * 25)
        else 0
      let nearby_facilities := final_location.facilities
      let nearby_facilities :=
        if final_location.ev_charging &&
            !(nearby_facilities.contains "EV充電") then
          nearby_facilities ++ ["EV充電"]
        else nearby_facilities
      let waypoint_names :=
        ((w0 :: wrest).filter (fun w => decide (w.type ≠ .final))).map
          (·.name)
      let nearby_facilities :=
        if waypoint_names.isEmpty then nearby_facilities
        else ("経由: " ++ String.intercalate ", " waypoint_names) ::
          nearby_facilities
      let combined : Except Unit (Option String) :=
        if acc.polylines.isEmpty then .ok none
        else combine_polylines acc.polylines
      combined.map (fun combined_polyline =>
        [⟨"A", final_location.name, eta,
          pyRound1 acc.total_distance, acc.total_duration, toll_fee,
          final_location.ev_charging, final_location.noise_level,
          final_location.scenery_score, nearby_facilities,
          combined_polyline⟩])

/-- `CachedRouteGenerator.generate_candidates`.  Note the source ignores its
`count` parameter: the waypoint branch is single-candidate by construction
and the no-waypoint branch is invoked with a hard-coded inner count of 1. -/
def generate_candidates (c : LocationCache) (rc : RouteCache)
    (origin : Coordinates) (extraction : DestinationExtraction) (count : ℕ)
    (current_time : ℤ) : Except Unit (List RouteFeatures) :=
  if extraction.waypoints.isEmpty then
    .ok (generate_destination_candidates c rc origin extraction 1
      current_time)
  else generate_waypoint_routes c rc origin extraction current_time

end CachedRouteGenerator

/-! ## Mock LLM client (`src/llm/mock_client.py`) and fallback chain
(`src/llm/fallback.py`) -/

/-- One chat message (`{"role": ..., "content": ...}`). -/
structure PyMessage where
  role : String
  content : String
  deriving Repr, DecidableEq

/-- The deterministic extraction mock body: the exact output of
`json.dumps(..., ensure_ascii=False)` for the hard-coded dictionary, wrapped
in a fenced block. -/
def mockExtractionBody : String :=
  "```json\n\x7b\"waypoints\": [\x7b\"name\": \"箱根温泉\", \"type\": \"final\", \"order\": 0, \"purpose\": null, \"duration_hint\": null\x7d], \"facility_types\": [\"温泉\"], \"amenities\": [\"EV充電\"], \"atmosphere\": [\"静か\"], \"activities\": [\"リフレッシュ\"], \"time_constraints\": null, \"distance_preference\": null, \"original_query\": \"\"\x7d\n```"

/-- The deterministic route evaluation mock body. -/
def mockRouteBody : String :=
  "```json\n\x7b\"ranking\": [\"A\", \"B\", \"C\"], \"recommended_id\": \"A\", \"explanation\": \"道の駅 富士川は静かな環境で、希望の到着時刻に余裕を持って到着できます。充電設備も完備しており、翌朝の移動にも安心です。\", \"confidence\": 0.85, \"follow_up_question\": null, \"reasoning_steps\": [\"ユーザーは静かな場所を希望\", \"到着時刻22:00に対してルートAは21:30着で余裕あり\", \"充電設備があるためバッテリー残量の心配なし\"]\x7d\n```"

/-- `MockLLMClient._generate_mock_response`. -/
def generate_mock_response (messages : List PyMessage) : String :=
  let last_message := match messages.getLast? with
    | some m => m.content
    | none => ""
  let system_message := match messages.head? with
    | some m => m.content
    | none => ""
  if pyIn "目的地情報を抽出" last_message || pyIn "waypoints" system_message then
    mockExtractionBody
  else if pyIn "route" (pyLower last_message) || pyIn "ルート" last_message then
    mockRouteBody
  else if pyIn "宿泊" last_message ||
      pyIn "accommodation" (pyLower last_message) then
    "宿泊モードでは、車両を宿泊施設として提供できます。静かな場所を選んで駐車し、快適な睡眠環境を提供することが重要です。"
  else if pyIn "配送" last_message || pyIn "delivery" (pyLower last_message) then
    "配送モードでは、効率的なルート設計と時間管理が重要です。荷物の積載量と配送先の優先順位を考慮しましょう。"
  else if pyIn "収益" last_message || pyIn "earnings" (pyLower last_message) then
    "収益最適化には、需要予測に基づいたモード切り替えが効果的です。時間帯や曜日による需要変動を考慮しましょう。"
  else
    "APIキーが設定されていないため、モックレスポンスを返しています。実際のAI機能を使用するには、環境変数を設定してください。"

/-- A behavioural model of one `BaseLLMClient` variant in the fallback
chain: its `provider.value` string and the outcome of `chat` on the call
under study (`some s` = returns `s`, `none` = raises). -/
structure LLMClient where
  provider : String
  chat_result : Option String
  deriving Repr, DecidableEq

/-- `set.add`: Python set addition, modelled on a duplicate-free list (only
membership, addition and clearing are used by the source). -/
def setAdd (s : List String) (x : String) : List String :=
  if x ∈ s then s else s ++ [x]

/-- The `for client in self._clients` loop of `FallbackLLMClient.chat`:
carries the failed-provider set, whether any exception was seen
(`last_error is not None`), and the list of providers actually invoked.
When the loop ends: if an error was seen, the failed set is cleared and a
fresh `MockLLMClient` result is returned; otherwise `RuntimeError` is
raised (modelled by `Except.error`).  Returns
`(outcome, new failed set, invoked providers)`. -/
def fallbackChatGo (messages : List PyMessage) :
    List LLMClient → List String → Bool → List String →
    Except Unit String × List String × List String
  | [], failed, seenErr, tried =>
    if seenErr then (.ok (generate_mock_response messages), [], tried)
    else (.error (), failed, tried)
  | cl :: rest, failed, seenErr, tried =>
    if cl.provider ∈ failed then
      fallbackChatGo messages rest failed seenErr tried
    else
      match cl.chat_result with
      | some s => (.ok s, failed, tried ++ [cl.provider])
      | none =>
        fallbackChatGo messages rest (setAdd failed cl.provider) true
          (tried ++ [cl.provider])

/-- `FallbackLLMClient.chat`, starting from a given failed-provider set. -/
def fallback_chat (messages : List PyMessage) (clients : List LLMClient)
    (failed : List String) : Except Unit String × List String × List String :=
  fallbackChatGo messages clients failed false []

/-! ## JSON values and `json.loads` (for `LLMService._parse_extraction_response`,
`src/llm/service.py`) -/

/-- A decoded JSON value (`json.loads` output). -/
inductive Json where
  | null
  | bool (b : Bool)
  | num (q : ℚ)
  | str (s : String)
  | arr (l : List Json)
  | obj (fields : List (String × Json))
  deriving Repr

/-- Skip JSON whitespace (space, tab, newline, carriage return). -/
def jsonWs (cs : List Char) : List Char :=
  cs.dropWhile (fun c => c == ' ' || c == '\t' || c == '\n' || c == '\r')

/-- Hexadecimal digit value. -/
def hexVal (c : Char) : Option ℕ :=
  if '0' ≤ c ∧ c ≤ '9' then some (c.toNat - 48)
  else if 'a' ≤ c ∧ c ≤ 'f' then some (c.toNat - 87)
  else if 'A' ≤ c ∧ c ≤ 'F' then some (c.toNat - 55)
  else none

/-- JSON string escape characters. -/
def escChar (c : Char) : Option Char :=
  if c = '"' then some '"'
  else if c = '\\' then some '\\'
  else if c = '/' then some '/'
  else if c = 'b' then some (Char.ofNat 8)
  else if c = 'f' then some (Char.ofNat 12)
  else if c = 'n' then some '\n'
  else if c = 'r' then some '\r'
  else if c = 't' then some '\t'
  else none

/-- Parse the body of a JSON string after the opening quote; unescaped
control characters and bad escapes are rejected as `json.loads` does.  The
fuel argument (always supplied above the input length) keeps the recursion
structural so the parser evaluates by reduction. -/
def parseJStr : ℕ → List Char → List Char → Option (String × List Char)
  | 0, _, _ => none
  | fuel + 1, cs, acc =>
    match cs with
    | [] => none
    | c :: rest =>
      if c = '"' then some (⟨acc.reverse⟩, rest)
      else if c = '\\' then
        match rest with
        | [] => none
        | e :: rest2 =>
          if e = 'u' then
            match rest2 with
            | h1 :: h2 :: h3 :: h4 :: rest3 =>
              match hexVal h1, hexVal h2, hexVal h3, hexVal h4 with
              | some a, some b, some c2, some d2 =>
                parseJStr fuel rest3
                  (Char.ofNat (((a * 16 + b) * 16 + c2) * 16 + d2) :: acc)
              | _, _, _, _ => none
            | _ => none
          else
            match escChar e with
            | some d => parseJStr fuel rest2 (d :: acc)
            | none => none
      else if c.toNat < 32 then none
      else parseJStr fuel rest (c :: acc)

/-- Decimal value of a digit list. -/
def digitsVal (ds : List Char) : ℕ :=
  ds.foldl (fun n c => n * 10 + (c.toNat - 48)) 0

/-- Parse an optional JSON fraction part. -/
def parseFracPart (cs : List Char) : Option (ℚ × List Char) :=
  match cs with
  | '.' :: t =>
    let p := t.span (·.isDigit)
    if p.1.isEmpty then none
    else some ((digitsVal p.1 : ℚ) / ((10 ^ p.1.length : ℕ) : ℚ), p.2)
  | _ => some (0, cs)

/-- Parse an optional JSON exponent part, returned as a multiplier. -/
def parseExpPart (cs : List Char) : Option (ℚ × List Char) :=
  match cs with
  | e :: t =>
    if e = 'e' ∨ e = 'E' then
      let sp : ℤ × List Char := match t with
        | '+' :: tt => (1, tt)
        | '-' :: tt => (-1, tt)
        | _ => (1, t)
      let p := sp.2.span (·.isDigit)
      if p.1.isEmpty then none
      else
        let ev := digitsVal p.1
        some (if sp.1 = 1 then ((10 : ℚ) ^ ev) else ((10 : ℚ) ^ ev)⁻¹, p.2)
    else some (1, cs)
  | [] => some (1, [])

/-- Parse a JSON number (`-?(0|[1-9][0-9]*)(\.[0-9]+)?([eE][+-]?[0-9]+)?`). -/
def parseJNumber (cs : List Char) : Option (ℚ × List Char) :=
  let sp : Bool × List Char := match cs with
    | '-' :: t => (true, t)
    | _ => (false, cs)
  let p := sp.2.span (·.isDigit)
  match hd : p.1 with
  | [] => none
  | d0 :: drest =>
    if d0 = '0' ∧ ¬drest.isEmpty then none
    else
      match parseFracPart p.2 with
      | none => none
      | some (fr, cs3) =>
        match parseExpPart cs3 with
        | none => none
        | some (ex, cs4) =>
          let mag := ((digitsVal p.1 : ℚ) + fr) * ex
          some (if sp.1 then -mag else mag, cs4)

/-- The mode of the recursive-descent JSON reader: one value, the item loop
of an array (with the items read so far), or the member loop of an object. -/
inductive PMode where
  | value
  | arrItems (acc : List Json)
  | objItems (acc : List (String × Json))

/-- The result of one reader step, matching the mode. -/
inductive POut where
  | val (v : Json)
  | items (l : List Json)
  | fields (l : List (String × Json))

/-- Fuelled recursive-descent JSON reader (the three mutually recursive
productions are merged into one fuel-structural function so that it
evaluates by reduction; the fuel is an upper bound on nesting depth and
callers supply more than the input length, so fuel exhaustion never fires
on real input).  Duplicate object keys overwrite in place as in a Python
`dict`. -/
def parseJ : ℕ → PMode → List Char → Option (POut × List Char)
  | 0, _, _ => none
  | fuel + 1, .value, cs =>
    match cs with
    | 'n' :: 'u' :: 'l' :: 'l' :: rest => some (.val .null, rest)
    | 't' :: 'r' :: 'u' :: 'e' :: rest => some (.val (.bool true), rest)
    | 'f' :: 'a' :: 'l' :: 's' :: 'e' :: rest => some (.val (.bool false), rest)
    | '"' :: rest =>
      match parseJStr (rest.length + 1) rest [] with
      | none => none
      | some (s, rest1) => some (.val (.str s), rest1)
    | '[' :: rest =>
      match jsonWs rest with
      | ']' :: rest2 => some (.val (.arr []), rest2)
      | rest1 =>
        match parseJ fuel (.arrItems []) rest1 with
        | some (.items l, rest2) => some (.val (.arr l), rest2)
        | _ => none
    | '\x7b' :: rest =>
      match jsonWs rest with
      | '\x7d' :: rest2 => some (.val (.obj []), rest2)
      | rest1 =>
        match parseJ fuel (.objItems []) rest1 with
        | some (.fields l, rest2) => some (.val (.obj l), rest2)
        | _ => none
    | _ =>
      match parseJNumber cs with
      | none => none
      | some (q, rest) => some (.val (.num q), rest)
  | fuel + 1, .arrItems acc, cs =>
    match parseJ fuel .value cs with
    | some (.val v, rest) =>
      (match jsonWs rest with
      | ',' :: rest2 => parseJ fuel (.arrItems (acc ++ [v])) (jsonWs rest2)
      | ']' :: rest2 => some (.items (acc ++ [v]), rest2)
      | _ => none)
    | _ => none
  | fuel + 1, .objItems acc, cs =>
    match cs with
    | '"' :: rest =>
      match parseJStr (rest.length + 1) rest [] with
      | none => none
      | some (key, rest1) =>
        match jsonWs rest1 with
        | ':' :: rest2 =>
          match parseJ fuel .value (jsonWs rest2) with
          | some (.val v, rest3) =>
            (match jsonWs rest3 with
            | ',' :: rest4 => parseJ fuel (.objItems (dictSet acc key v))
                (jsonWs rest4)
            | '\x7d' :: rest4 => some (.fields (dictSet acc key v), rest4)
            | _ => none)
          | _ => none
        | _ => none
    | _ => none

/-- `json.loads`: parse a complete JSON document, allowing surrounding
whitespace only; `none` models `json.JSONDecodeError`. -/
def parseJson (s : String) : Option Json :=
  let cs := jsonWs s.data
  match parseJ (cs.length + 1) .value cs with
  | some (.val v, rest) => if (jsonWs rest).isEmpty then some v else none
  | _ => none

/-! ## `LLMService._parse_extraction_response` (`src/llm/service.py`) -/

/-- Split a character list at the first occurrence of `needle`, returning
the part before it and the part after it. -/
def splitFirst (needle : List Char) : List Char →
    Option (List Char × List Char)
  | [] => if needle.isEmpty then some ([], []) else none
  | c :: t =>
    if needle.isPrefixOf (c :: t) then
      some ([], (c :: t).drop needle.length)
    else
      match splitFirst needle t with
      | none => none
      | some (before, after) => some (c :: before, after)

/-- Python regex `\s` whitespace characters (the source data is ASCII). -/
def isPyWs (c : Char) : Bool :=
  c == ' ' || c == '\t' || c == '\n' || c == '\r' ||
  c == Char.ofNat 11 || c == Char.ofNat 12

/-- Strip regex whitespace from both ends. -/
def pyStripWs (cs : List Char) : List Char :=
  ((cs.dropWhile isPyWs).reverse.dropWhile isPyWs).reverse

/-- The fenced-block search `re.search(r'```json\s*(.*?)\s*```', response,
re.DOTALL)`: everything between the first ` ```json ` marker and the first
following ` ``` ` marker, with surrounding whitespace absorbed by the
greedy/lazy groups — i.e. stripped. -/
def extractFencedJson (response : String) : Option String :=
  match splitFirst "```json".data response.data with
  | none => none
  | some (_, after) =>
    match splitFirst "```".data after with
    | none => none
    | some (between, _) => some ⟨pyStripWs between⟩

/-- The string handed to `json.loads`: the fenced group if one matched,
else the whole response. -/
def extractionJsonStr (response : String) : String :=
  match extractFencedJson response with
  | some grp => grp
  | none => response

/-- The exceptions that can escape `_parse_extraction_response`: its
`except` clause catches only `json.JSONDecodeError` and `ValueError`
(which covers pydantic `ValidationError`), so `TypeError` and
`AttributeError` propagate to the caller. -/
inductive PyErr where
  | typeErr
  | attrErr
  deriving Repr, DecidableEq

/-- Python truthiness of a decoded JSON value. -/
def jsonTruthy : Json → Bool
  | .null => false
  | .bool b => b
  | .num q => decide (q ≠ 0)
  | .str s => decide (s ≠ "")
  | .arr l => !l.isEmpty
  | .obj fields => !fields.isEmpty

/-- The empty-but-valid `DestinationExtraction` returned on parse failure. -/
def emptyExtraction (original_query : String) : DestinationExtraction :=
  ⟨[], [], [], [], [], none, none, original_query⟩

/-- One iteration of the waypoint loop: `wp_data.get` on a non-dict entry
raises `AttributeError`; `WaypointType(value)` on an unhashable value
raises `TypeError`; a wrong enum string or a failed pydantic field
validation raises `ValueError`/`ValidationError`, which the loop catches
and skips (`Except.ok none`). -/
def processWaypointItem (item : Json) : Except PyErr (Option ExtractedWaypoint) :=
  match item with
  | .obj flds =>
    let typeVal := (dictGet flds "type").getD (.str "final")
    match typeVal with
    | .arr _ => .error .typeErr
    | .obj _ => .error .typeErr
    | .str s =>
      let wpType : Option WaypointType :=
        if s = "required" then some .required
        else if s = "optional" then some .optional
        else if s = "final" then some .final
        else none
      match wpType with
      | none => .ok none
      | some ty =>
        let nameVal := (dictGet flds "name").getD (.str "")
        let orderVal := (dictGet flds "order").getD (.num 0)
        let purposeVal := (dictGet flds "purpose").getD .null
        let durationVal := (dictGet flds "duration_hint").getD .null
        let built : Option ExtractedWaypoint := do
          let nm ← match nameVal with
            | .str s2 => some s2
            | _ => none
          let od ← match orderVal with
            | .num q => if q.den = 1 ∧ 0 ≤ q.num then some q.num else none
            | _ => none
          let pp ← match purposeVal with
            | .null => some none
            | .str s2 => some (some s2)
            | _ => none
          let dh ← match durationVal with
            | .null => some none
            | .str s2 => some (some s2)
            | _ => none
          pure ⟨nm, ty, od, pp, dh⟩
        .ok built
    | _ => .ok none
  | _ => .error .attrErr

/-- The `for wp_data in data["waypoints"]` loop: failed entries are skipped,
uncaught exceptions abort. -/
def processWaypointItems : List Json → Except PyErr (List ExtractedWaypoint)
  | [] => .ok []
  | item :: rest =>
    match processWaypointItem item with
    | .error e => .error e
    | .ok none => processWaypointItems rest
    | .ok (some wp) =>
      match processWaypointItems rest with
      | .error e => .error e
      | .ok tl => .ok (wp :: tl)

/-- pydantic validation of a `list[str]` field (absent means the default
`[]`). -/
def validateStrList : Option Json → Option (List String)
  | none => some []
  | some (.arr l) => l.mapM (fun v => match v with
      | .str s => some s
      | _ => none)
  | some _ => none

/-- pydantic validation of an `Optional[str]` field. -/
def validateOptStr : Option Json → Option (Option String)
  | none => some none
  | some .null => some none
  | some (.str s) => some (some s)
  | some _ => none

/-- `LLMService._parse_extraction_response`.  `Except.error` models an
exception escaping the method (`TypeError` on a JSON response whose top
level is not an object, or on an unhashable waypoint `type` value;
`AttributeError` on a non-dict waypoint entry).  `json.JSONDecodeError`
and `ValueError`/`ValidationError` are caught and yield the empty default
carrying the original query. -/
def parseExtractionResponse (response original_query : String) :
    Except PyErr DestinationExtraction :=
  let json_str := extractionJsonStr response
  match parseJson json_str with
  | none => .ok (emptyExtraction original_query)
  | some data =>
    match data with
    | .obj fields0 =>
      let fields := dictSet fields0 "original_query" (.str original_query)
      let wpRaw := dictGet fields "waypoints"
      let wpStep : Except PyErr (Option (List ExtractedWaypoint)) :=
        match wpRaw with
        | some v =>
          if jsonTruthy v then
            match v with
            | .arr items =>
              match processWaypointItems items with
              | .error e => .error e
              | .ok l => .ok (some l)
            | .str _ => .error .attrErr
            | .obj _ => .error .attrErr
            | .num _ => .error .typeErr
            | .bool _ => .error .typeErr
            | .null => .ok none
          else .ok none
        | none => .ok none
      match wpStep with
      | .error e => .error e
      | .ok processed =>
        let waypointsVal : Option (List ExtractedWaypoint) :=
          match processed with
          | some l => some l
          | none =>
            match wpRaw with
            | none => some []
            | some (.arr []) => some []
            | some _ => none
        let result : Option DestinationExtraction := do
          let w ← waypointsVal
          let ft ← validateStrList (dictGet fields "facility_types")
          let am ← validateStrList (dictGet fields "amenities")
          let at2 ← validateStrList (dictGet fields "atmosphere")
          let ac ← validateStrList (dictGet fields "activities")
          let tc ← validateOptStr (dictGet fields "time_constraints")
          let dp ← validateOptStr (dictGet fields "distance_preference")
          pure ⟨w, ft, am, at2, ac, tc, dp, original_query⟩
        match result with
        | some e => .ok e
        | none => .ok (emptyExtraction original_query)
    | _ => .error .typeErr

/-! ## Decidability of `Except` results -/

instance {α β : Type} [DecidableEq α] [DecidableEq β] : DecidableEq (Except α β)
  | .error a, .error b =>
    if h : a = b then .isTrue (by rw [h]) else .isFalse (by simp [h])
  | .error _, .ok _ => .isFalse (by simp)
  | .ok _, .error _ => .isFalse (by simp)
  | .ok a, .ok b =>
    if h : a = b then .isTrue (by rw [h]) else .isFalse (by simp [h])

/-! ## Concrete data used by the witnesses -/

/-- A demo route entry whose key is ambiguous between the id pairs
`("a:b", "c")` and `("a", "b:c")`. -/
def collisionRoute : CachedRoute := ⟨"a:b", "c", 12, 34, "xy", []⟩

/-- A route cache holding the ambiguous entry. -/
def collisionCache : RouteCache := ⟨[("a:b:c", collisionRoute)]⟩

/-- A destination location for the C8 witness. -/
def segSpot : Location :=
  ⟨"spot", "Spot", 35, 139, .onsen, "静岡県", [], [], [], false, "low", 4⟩

/-- The exact-pair entry for the C8 witness. -/
def segExact : CachedRoute := ⟨"here", "spot", 7, 9, "pp", []⟩

/-- The default-origin entry for the C8 witness, with different values. -/
def segDflt : CachedRoute := ⟨"tokyo_station", "spot", 100, 90, "qq", []⟩

/-- The route cache for the C8 witness, holding both entries. -/
def segCache : RouteCache :=
  ⟨[("here:spot", segExact), ("tokyo_station:spot", segDflt)]⟩

/-- A valid gazetteer entry for the C7 counterexample. -/
def locHakone : Location :=
  ⟨"hakone", "箱根", 35, 139, .onsen, "神奈川県", ["はこね"], ["温泉"],
    ["トイレ"], true, "low", 4⟩

/-- An already-loaded empty cache state. -/
def loadedEmptyCache : LocationCache := ⟨[], [], [], [], [], true⟩

/-- The lowercased strings under which `_add_to_index` files a location in
the name index: its name followed by its aliases. -/
def nameKeys (loc : Location) : List String :=
  pyLower loc.name :: loc.aliases.map pyLower

/-- The ids filed under one name-index key by a sequence of
`_add_to_index` calls starting from an empty index: each location
contributes one copy of its id per matching name/alias. -/
def nameEntries (k : String) : List Location → List String
  | [] => []
  | loc :: rest =>
    List.replicate ((nameKeys loc).count k) loc.id ++ nameEntries k rest

/-- The score that the running `scores` dictionary of `search` assigns to
an id (0 when absent). -/
def scoreOf (m : LocationCache.ScoreMap) (loc_id : String) : ℚ :=
  ((dictGet m loc_id).map Prod.fst).getD 0

/-- The total number of occurrences of an id across the name-index entries
whose key is substring-related to `k` — the number of +8 substring awards
the id can collect for one place term (when it has no exact match). -/
def subOcc (c : LocationCache) (k : String) (i : String) : ℕ :=
  (c.name_index.map (fun entry =>
    if pyIn k entry.1 || pyIn entry.1 k then entry.2.count i else 0)).sum

/-- A location exactly named "x", for the C4 counterexample. -/
def subLocX : Location :=
  ⟨"x", "x", 0, 0, .city, "p", [], [], [], false, "medium", 3⟩

/-- A location named "xa" with alias "xb": two substring matches for the
term "x". -/
def subLocY : Location :=
  ⟨"y", "xa", 0, 0, .city, "p", ["xb"], [], [], false, "medium", 3⟩

/-- The C4 counterexample gazetteer. -/
def subCache : LocationCache :=
  [subLocX, subLocY].foldl LocationCache.add_to_index LocationCache.empty

/-- A location named "xa" with no alias: a single substring match. -/
def subLocZ : Location :=
  ⟨"z", "xa", 0, 0, .city, "p", [], [], [], false, "medium", 3⟩

/-- The C4 witness gazetteer (at most one substring match per id). -/
def subCacheW : LocationCache :=
  [subLocX, subLocZ].foldl LocationCache.add_to_index LocationCache.empty

/-- A location named "a" for the C9 counterexample. -/
def aliasLocA : Location :=
  ⟨"idA", "a", 1, 2, .city, "p", [], [], [], false, "medium", 3⟩

/-- A location named "b" whose alias "a" collides with `aliasLocA`. -/
def aliasLocB : Location :=
  ⟨"idB", "b", 3, 4, .city, "p", ["a"], [], [], false, "medium", 3⟩

/-- The loaded gazetteer with the name/alias collision. -/
def aliasCache : LocationCache :=
  [aliasLocA, aliasLocB].foldl LocationCache.add_to_index LocationCache.empty

/-- The collision-free single-location gazetteer for the C9 witness. -/
def aliasCacheSolo : LocationCache :=
  [aliasLocB].foldl LocationCache.add_to_index LocationCache.empty

/-- The providers invoked (and marked failed) while scanning a chain prefix
in which every non-skipped variant raises; used to state the fallback chain
theorem. -/
def invokedTrace (failed : List String) : List LLMClient → List String
  | [] => []
  | d :: rest =>
    if d.provider ∈ failed then invokedTrace failed rest
    else d.provider :: invokedTrace (setAdd failed d.provider) rest

/-- Four distinct candidate locations for the C3 counterexample. -/
def c3LocA : Location :=
  ⟨"a", "locA", 0, 0, .city, "p", [], [], [], false, "medium", 4⟩

/-- Second C3 location. -/
def c3LocB : Location :=
  ⟨"b", "locB", 0, 0, .city, "p", [], [], [], false, "medium", 3⟩

/-- Third C3 location. -/
def c3LocC : Location :=
  ⟨"c", "locC", 0, 0, .city, "p", [], [], [], false, "medium", 2⟩

/-- Fourth C3 location. -/
def c3LocD : Location :=
  ⟨"d", "locD", 0, 0, .city, "p", [], [], [], false, "medium", 1⟩

/-- The four-location gazetteer for C3. -/
def c3Cache : LocationCache :=
  [c3LocA, c3LocB, c3LocC, c3LocD].foldl LocationCache.add_to_index
    LocationCache.empty

/-- A single final waypoint resolving to `c3LocA`. -/
def c3Waypoint : ExtractedWaypoint :=
  ⟨"locA", .final, 1, none, none⟩

/-- An extraction carrying that waypoint, for the C3 witness. -/
def c3ExtractionW : DestinationExtraction :=
  ⟨[c3Waypoint], [], [], [], [], none, none, "q"⟩

/-- The candidate list the generator produces on the C3 waypoint input
(`generate_candidates` succeeds there, so the error arm is vacuous). -/
def c3WaypointOut : List RouteFeatures :=
  match CachedRouteGenerator.generate_candidates c3Cache ⟨[]⟩ ⟨0, 0⟩
      c3ExtractionW 4 0 with
  | .ok l => l
  | .error _ => []

/-! ## General helper lemmas -/

lemma String.eq_of_data_eq {a b : String} (h : a.data = b.data) : a = b := by
  cases a; cases b; exact congrArg String.mk h

lemma colonFree_key_inj (a b c d : List Char)
    (ha : ':' ∉ a) (hc : ':' ∉ c)
    (h : a ++ ':' :: b = c ++ ':' :: d) : a = c ∧ b = d := by
  induction a generalizing c with
  | nil =>
    cases c with
    | nil => simpa using h
    | cons ch ct =>
      simp only [List.nil_append, List.cons_append, List.cons.injEq] at h
      exact absurd (h.1 ▸ List.mem_cons_self ch ct) hc
  | cons ah at' ih =>
    cases c with
    | nil =>
      simp only [List.cons_append, List.nil_append, List.cons.injEq] at h
      exact absurd (h.1 ▸ List.mem_cons_self ah at') ha
    | cons ch ct =>
      simp only [List.cons_append, List.cons.injEq] at h
      have ha' : ':' ∉ at' := fun hm => ha (List.mem_cons_of_mem ah hm)
      have hc' : ':' ∉ ct := fun hm => hc (List.mem_cons_of_mem ch hm)
      obtain ⟨e1, e2⟩ := ih ct ha' hc' h.2
      exact ⟨by rw [h.1, e1], e2⟩

/-! ## C10: route cache key collisions -/

/-- C10: `RouteCache` keys routes by the concatenation
`origin_id + ":" + destination_id`, so any two (origin, destination) pairs
whose concatenated keys coincide are indistinguishable to `RouteCache.get`,
and distinct pairs get distinct keys whenever all four ids are colon-free. -/
theorem routeCache_key_spec (rc : RouteCache) (o1 d1 o2 d2 : String) :
    (RouteCache.make_key o1 d1 = RouteCache.make_key o2 d2 →
      rc.get o1 d1 = rc.get o2 d2) ∧
    (':' ∉ o1.data → ':' ∉ d1.data → ':' ∉ o2.data → ':' ∉ d2.data →
      RouteCache.make_key o1 d1 = RouteCache.make_key o2 d2 →
      o1 = o2 ∧ d1 = d2) := by
  constructor
  · intro h
    unfold RouteCache.get
    rw [h]
  · intro h1 _ h3 _ h
    have hd : (RouteCache.make_key o1 d1).data =
        (RouteCache.make_key o2 d2).data := by rw [h]
    unfold RouteCache.make_key at hd
    simp only [String.data_append, List.append_assoc,
      List.singleton_append] at hd
    obtain ⟨e1, e2⟩ := colonFree_key_inj _ _ _ _ h1 h3 hd
    exact ⟨String.eq_of_data_eq e1, String.eq_of_data_eq e2⟩

/-- Witness for C10 at a concrete collision (`"a:b"/"c"` vs `"a"/"b:c"`)
and at concrete colon-free ids. -/
theorem routeCache_key_spec_witness :
    (collisionCache.get "a:b" "c" = collisionCache.get "a" "b:c") ∧
    ("ab" = "ab" ∧ "cd" = "cd") :=
  ⟨(routeCache_key_spec collisionCache "a:b" "c" "a" "b:c").1 rfl,
   (routeCache_key_spec collisionCache "ab" "cd" "ab" "cd").2 (by decide)
     (by decide) (by decide) (by decide) rfl⟩

/-! ## C8: exact cache entry precedence in `_calculate_segment` -/

/-- C8: when the route cache holds an entry for the exact
(start_location_id, destination) pair, `_calculate_segment` returns that
entry's distance, duration and polyline (the polyline normalised by the
source's `or None`, which maps the empty string to no polyline) even when a
default-origin entry for the same destination also exists — no
recomputation and no use of the default-origin entry. -/
theorem calculate_segment_exact_precedence (rc : RouteCache)
    (start : Coordinates ⊕ Location) (endLoc : Location) (sid : String)
    (exact dflt : CachedRoute)
    (hsid : sid ≠ "")
    (hexact : rc.get sid endLoc.id = some exact)
    (_hdflt : rc.get_from_default_origin endLoc.id = some dflt) :
    CachedRouteGenerator.calculate_segment rc start endLoc (some sid) =
      (exact.distance_km, exact.duration_minutes,
        CachedRouteGenerator.polyOrNone exact.polyline) := by
  unfold CachedRouteGenerator.calculate_segment
  simp [hsid, hexact]

/-- Witness for C8: with both entries present, the exact entry's values
(7 km, 9 min, polyline "pp") are returned, not the default entry's
(100 km, 90 min, "qq"). -/
theorem calculate_segment_exact_precedence_witness :
    CachedRouteGenerator.calculate_segment segCache (Sum.inl ⟨0, 0⟩) segSpot
      (some "here") = (7, 9, some "pp") := by
  rw [calculate_segment_exact_precedence segCache (Sum.inl ⟨0, 0⟩) segSpot
    "here" segExact segDflt (by decide) (by with_unfolding_all decide)
    (by with_unfolding_all decide)]
  with_unfolding_all decide

/-! ## C2: the fallback chain -/

lemma setAdd_mem_mono {s : List String} {p x : String} (h : p ∈ s) :
    p ∈ setAdd s x := by
  unfold setAdd
  split
  · exact h
  · exact List.mem_append_left _ h

lemma fallbackChatGo_ok_of_seenErr (messages : List PyMessage)
    (clients : List LLMClient) (failed tried : List String) :
    ∃ r, (fallbackChatGo messages clients failed true tried).1 = .ok r := by
  induction clients generalizing failed tried with
  | nil => exact ⟨generate_mock_response messages, rfl⟩
  | cons cl rest ih =>
    unfold fallbackChatGo
    by_cases hm : cl.provider ∈ failed
    · simp only [if_pos hm]
      exact ih failed tried
    · simp only [if_neg hm]
      cases hres : cl.chat_result with
      | some s => exact ⟨s, rfl⟩
      | none => exact ih _ _

lemma fallbackChatGo_ok (messages : List PyMessage)
    (clients : List LLMClient) (failed tried : List String)
    (h : ∃ cl ∈ clients, cl.provider ∉ failed) :
    ∃ r, (fallbackChatGo messages clients failed false tried).1 = .ok r := by
  induction clients generalizing failed tried with
  | nil => simp at h
  | cons cl rest ih =>
    unfold fallbackChatGo
    by_cases hm : cl.provider ∈ failed
    · simp only [if_pos hm]
      obtain ⟨cl', hcl', hnot⟩ := h
      rcases List.mem_cons.mp hcl' with heq | hmem
      · exact absurd hm (heq ▸ hnot)
      · exact ih failed tried ⟨cl', hmem, hnot⟩
    · simp only [if_neg hm]
      cases hres : cl.chat_result with
      | some s => exact ⟨s, rfl⟩
      | none => exact fallbackChatGo_ok_of_seenErr messages rest _ _

lemma fallbackChatGo_skips (messages : List PyMessage)
    (clients : List LLMClient) (failed tried : List String) (seenErr : Bool)
    (p : String) (hp : p ∈ failed) (ht : p ∉ tried) :
    p ∉ (fallbackChatGo messages clients failed seenErr tried).2.2 := by
  induction clients generalizing failed tried seenErr with
  | nil =>
    unfold fallbackChatGo
    cases seenErr <;> simpa using ht
  | cons cl rest ih =>
    unfold fallbackChatGo
    by_cases hm : cl.provider ∈ failed
    · simp only [if_pos hm]
      exact ih failed tried seenErr hp ht
    · simp only [if_neg hm]
      have hne : p ≠ cl.provider := fun he => hm (he ▸ hp)
      have ht' : p ∉ tried ++ [cl.provider] := by
        simp [ht, hne]
      cases hres : cl.chat_result with
      | some s => simpa using ht'
      | none =>
        show p ∉ (fallbackChatGo messages rest (setAdd failed cl.provider)
          true (tried ++ [cl.provider])).2.2
        exact ih (setAdd failed cl.provider) (tried ++ [cl.provider])
          true (setAdd_mem_mono hp) ht'

lemma fallbackChatGo_mock (messages : List PyMessage)
    (clients : List LLMClient) (failed tried : List String) (seenErr : Bool)
    (hall : ∀ cl ∈ clients, cl.provider ∈ failed ∨ cl.chat_result = none)
    (h : seenErr = true ∨ ∃ cl ∈ clients, cl.provider ∉ failed) :
    (fallbackChatGo messages clients failed seenErr tried).1 =
      .ok (generate_mock_response messages) ∧
    (fallbackChatGo messages clients failed seenErr tried).2.1 = [] := by
  induction clients generalizing failed tried seenErr with
  | nil =>
    rcases h with h | h
    · subst h
      exact ⟨rfl, rfl⟩
    · simp at h
  | cons cl rest ih =>
    unfold fallbackChatGo
    by_cases hm : cl.provider ∈ failed
    · simp only [if_pos hm]
      refine ih _ _ _ (fun c hc => hall c (List.mem_cons_of_mem cl hc)) ?_
      rcases h with h | ⟨cl', hcl', hnot⟩
      · exact Or.inl h
      · rcases List.mem_cons.mp hcl' with heq | hmem
        · exact absurd hm (heq ▸ hnot)
        · exact Or.inr ⟨cl', hmem, hnot⟩
    · simp only [if_neg hm]
      have hres : cl.chat_result = none := by
        rcases hall cl (List.mem_cons_self cl rest) with hf | hn
        · exact absurd hf hm
        · exact hn
      rw [hres]
      refine ih _ _ _ ?_ (Or.inl rfl)
      intro c hc
      rcases hall c (List.mem_cons_of_mem cl hc) with hf | hn
      · exact Or.inl (setAdd_mem_mono hf)
      · exact Or.inr hn

lemma fallbackChatGo_success (messages : List PyMessage)
    (pre : List LLMClient) (c : LLMClient) (post : List LLMClient)
    (failed tried : List String) (seenErr : Bool) (s : String)
    (hpre : ∀ d ∈ pre, d.provider ∈ failed ∨ d.chat_result = none)
    (hcp : ∀ d ∈ pre, d.provider ≠ c.provider)
    (hc : c.provider ∉ failed) (hs : c.chat_result = some s) :
    fallbackChatGo messages (pre ++ c :: post) failed seenErr tried =
      (.ok s, List.foldl setAdd failed (pre.map (·.provider)),
        tried ++ invokedTrace failed pre ++ [c.provider]) := by
  induction pre generalizing failed tried seenErr with
  | nil =>
    unfold fallbackChatGo
    simp only [List.nil_append, if_neg hc, hs, invokedTrace, List.map_nil,
      List.foldl_nil, List.append_nil]
  | cons d rest ih =>
    have hpre' := fun x hx => hpre x (List.mem_cons_of_mem d hx)
    have hcp' := fun x hx => hcp x (List.mem_cons_of_mem d hx)
    by_cases hm : d.provider ∈ failed
    · have hstep : fallbackChatGo messages ((d :: rest) ++ c :: post) failed
          seenErr tried =
          fallbackChatGo messages (rest ++ c :: post) failed seenErr tried := by
        simp only [List.cons_append, fallbackChatGo, if_pos hm,
          List.append_eq]
      rw [hstep, ih failed tried seenErr hpre' hcp' hc]
      have hset : setAdd failed d.provider = failed := by
        unfold setAdd
        simp [hm]
      simp only [List.map_cons, List.foldl_cons, hset, invokedTrace,
        if_pos hm]
    · have hdres : d.chat_result = none := by
        rcases hpre d (List.mem_cons_self d rest) with hf | hn
        · exact absurd hf hm
        · exact hn
      have hstep : fallbackChatGo messages ((d :: rest) ++ c :: post) failed
          seenErr tried =
          fallbackChatGo messages (rest ++ c :: post)
            (setAdd failed d.provider) true (tried ++ [d.provider]) := by
        simp only [List.cons_append, fallbackChatGo, if_neg hm, hdres,
          List.append_eq]
      rw [hstep, ih (setAdd failed d.provider) (tried ++ [d.provider]) true
        ?_ hcp' ?_]
      · simp only [List.map_cons, List.foldl_cons, invokedTrace, if_neg hm,
          List.append_assoc, List.cons_append, List.singleton_append,
          List.nil_append]
      · intro x hx
        rcases hpre x (List.mem_cons_of_mem d hx) with hf | hn
        · exact Or.inl (setAdd_mem_mono hf)
        · exact Or.inr hn
      · intro hmem
        unfold setAdd at hmem
        by_cases hdp : d.provider ∈ failed
        · simp [hdp] at hmem
          exact hc hmem
        · simp [hdp] at hmem
          rcases hmem with hmem | hmem
          · exact hc hmem
          · exact hcp d (List.mem_cons_self d rest) hmem.symm

/-- C2 (amended): for every call to `FallbackLLMClient.chat` in which at
least one listed variant's provider is not in the initial failed set — true
of every state the wrapper itself can reach, since each call ends with the
failed set either cleared or missing the successful provider — the call (a)
never raises; (b) never invokes a variant whose provider is in the initial
failed set; (c) if every variant is pre-failed or raises, clears the failed
set and returns a fresh mock response; and (d) if the variants before the
first available succeeding variant all raise or are skipped, returns that
variant's result, with exactly the raising providers added to the failed
set.  Without the availability hypothesis the call can raise
`RuntimeError` (see the counterexample). -/
theorem fallback_chat_spec (messages : List PyMessage)
    (clients : List LLMClient) (failed : List String)
    (havail : ∃ cl ∈ clients, cl.provider ∉ failed) :
    (∃ r, (fallback_chat messages clients failed).1 = .ok r) ∧
    (∀ p ∈ failed, p ∉ (fallback_chat messages clients failed).2.2) ∧
    ((∀ cl ∈ clients, cl.provider ∈ failed ∨ cl.chat_result = none) →
      (fallback_chat messages clients failed).1 =
        .ok (generate_mock_response messages) ∧
      (fallback_chat messages clients failed).2.1 = []) ∧
    (∀ pre c post s, clients = pre ++ c :: post →
      (∀ d ∈ pre, d.provider ∈ failed ∨ d.chat_result = none) →
      (∀ d ∈ pre, d.provider ≠ c.provider) →
      c.provider ∉ failed → c.chat_result = some s →
      fallback_chat messages clients failed =
        (.ok s, List.foldl setAdd failed (pre.map (·.provider)),
          invokedTrace failed pre ++ [c.provider])) := by
  refine ⟨fallbackChatGo_ok messages clients failed [] havail,
    fun p hp => fallbackChatGo_skips messages clients failed [] false p hp
      (by simp),
    fun hall => fallbackChatGo_mock messages clients failed [] false hall
      (Or.inr havail),
    fun pre c post s hsplit hpre hcp hc hs => ?_⟩
  subst hsplit
  have := fallbackChatGo_success messages pre c post failed [] false s hpre
    hcp hc hs
  unfold fallback_chat
  rw [this]
  simp

/-- C2 counterexample: the claim quantifies over every initial
failed-provider set, but when the failed set already contains every listed
provider, no variant is tried, `last_error` stays `None`, and `chat` raises
`RuntimeError` (modelled by `Except.error`) instead of returning a mock
response — so the call does raise to its caller. -/
theorem fallback_chat_raises_counterexample :
    fallback_chat [] [⟨"cloud", some "hi"⟩] ["cloud"] =
      (.error (), ["cloud"], []) := by
  decide

/-- Witness for C2 at the spec's own scenario: three variants where the
first two raise and the third succeeds.  The first call returns the third
variant's result and marks the first two failed; the subsequent call with
that failed set skips them and invokes only the third. -/
theorem fallback_chat_spec_witness :
    fallback_chat [] [⟨"cloud", none⟩, ⟨"local", none⟩, ⟨"mock", some "ok"⟩]
        [] = (.ok "ok", ["cloud", "local"], ["cloud", "local", "mock"]) ∧
    fallback_chat [] [⟨"cloud", none⟩, ⟨"local", none⟩, ⟨"mock", some "ok"⟩]
        ["cloud", "local"] =
      (.ok "ok", ["cloud", "local"], ["mock"]) := by
  constructor
  · have h := (fallback_chat_spec []
      [⟨"cloud", none⟩, ⟨"local", none⟩, ⟨"mock", some "ok"⟩] []
      ⟨⟨"cloud", none⟩, by decide, by decide⟩).2.2.2
      [⟨"cloud", none⟩, ⟨"local", none⟩] ⟨"mock", some "ok"⟩ [] "ok"
      rfl (by decide) (by decide) (by decide) rfl
    rw [h]
    decide
  · have h := (fallback_chat_spec []
      [⟨"cloud", none⟩, ⟨"local", none⟩, ⟨"mock", some "ok"⟩]
      ["cloud", "local"]
      ⟨⟨"mock", some "ok"⟩, by decide, by decide⟩).2.2.2
      [⟨"cloud", none⟩, ⟨"local", none⟩] ⟨"mock", some "ok"⟩ [] "ok"
      rfl (by decide) (by decide) (by decide) rfl
    rw [h]
    decide

/-! ## C7: gazetteer loading -/

lemma addEntries_map_some_append_none (pre : List Location)
    (post : List (Option Location)) :
    ∀ c : LocationCache,
      LocationCache.addEntries c (pre.map some ++ none :: post) =
        (pre.foldl LocationCache.add_to_index c, false) := by
  induction pre with
  | nil => intro c; rfl
  | cons l rest ih =>
    intro c
    simpa [LocationCache.addEntries] using ih (c.add_to_index l)

lemma addEntries_map_some (locs : List Location) :
    ∀ c : LocationCache,
      LocationCache.addEntries c (locs.map some) =
        (locs.foldl LocationCache.add_to_index c, true) := by
  induction locs with
  | nil => intro c; rfl
  | cons l rest ih =>
    intro c
    simpa [LocationCache.addEntries] using ih (c.add_to_index l)

lemma add_to_index_loaded (c : LocationCache) (l : Location) :
    (c.add_to_index l).loaded = c.loaded := rfl

lemma foldl_add_to_index_loaded (locs : List Location) :
    ∀ c : LocationCache,
      (locs.foldl LocationCache.add_to_index c).loaded = c.loaded := by
  induction locs with
  | nil => intro c; rfl
  | cons l rest ih => intro c; simpa using ih (c.add_to_index l)

/-- C7 (amended): `load` is a no-op returning success once `_loaded` is
set; a missing file or malformed JSON returns failure with the state
untouched; a locations array whose entries are all valid populates the
index once and sets `_loaded`; but an array with an invalid entry returns
failure with every entry before the first invalid one already added to the
index (and `_loaded` still unset, so the partially populated index is
re-filled on the next call) — the index is not left empty. -/
theorem location_cache_load_spec (c : LocationCache) :
    (c.loaded = true → ∀ src, c.load src = (c, true)) ∧
    (c.loaded = false → c.load .missing = (c, false)) ∧
    (c.loaded = false → c.load .malformed = (c, false)) ∧
    (∀ (pre : List Location) (post : List (Option Location)),
      c.loaded = false →
      c.load (.entries (pre.map some ++ none :: post)) =
        (pre.foldl LocationCache.add_to_index c, false) ∧
      (pre.foldl LocationCache.add_to_index c).loaded = false) ∧
    (∀ locs : List Location, c.loaded = false →
      c.load (.entries (locs.map some)) =
        ({ locs.foldl LocationCache.add_to_index c with loaded := true },
          true)) := by
  refine ⟨?_, ?_, ?_, ?_, ?_⟩
  · intro hl src
    unfold LocationCache.load
    simp [hl]
  · intro hl
    unfold LocationCache.load
    simp [hl]
  · intro hl
    unfold LocationCache.load
    simp [hl]
  · intro pre post hl
    constructor
    · unfold LocationCache.load
      simp [hl, addEntries_map_some_append_none]
    · rw [foldl_add_to_index_loaded]
      exact hl
  · intro locs hl
    unfold LocationCache.load
    simp [hl, addEntries_map_some]

/-- C7 counterexample: loading a dataset whose locations array holds one
valid entry followed by one invalid entry returns failure, yet leaves the
valid entry in the index — the index is not "usably empty" after a
malformed-dataset failure. -/
theorem location_cache_load_counterexample :
    (LocationCache.empty.load (.entries [some locHakone, none])).2 = false ∧
    (LocationCache.empty.load
      (.entries [some locHakone, none])).1.locations ≠ [] := by
  with_unfolding_all decide

/-- Witness for C7: the already-loaded no-op, the missing-file failure, and
a fully valid single-entry load. -/
theorem location_cache_load_spec_witness :
    (loadedEmptyCache.load .missing = (loadedEmptyCache, true)) ∧
    (LocationCache.empty.load .missing = (LocationCache.empty, false)) ∧
    (LocationCache.empty.load (.entries [some locHakone]) =
      ({ [locHakone].foldl LocationCache.add_to_index LocationCache.empty
          with loaded := true }, true)) :=
  ⟨(location_cache_load_spec loadedEmptyCache).1 rfl .missing,
   (location_cache_load_spec LocationCache.empty).2.1 rfl,
   (location_cache_load_spec LocationCache.empty).2.2.2.2 [locHakone] rfl⟩

/-! ## C9: name/alias lookup identity -/

lemma dictGet_dictSet {α : Type} (d : List (String × α)) (k k' : String)
    (v : α) :
    dictGet (dictSet d k v) k' = if k = k' then some v else dictGet d k' := by
  induction d with
  | nil => simp [dictSet, dictGet]
  | cons kv t ih =>
    obtain ⟨k0, v0⟩ := kv
    simp only [dictSet]
    by_cases h0 : k0 = k
    · subst h0
      simp only [if_pos rfl, dictGet]
      by_cases h1 : k0 = k' <;> simp [dictGet, h1]
    · simp only [if_neg h0, dictGet]
      by_cases h1 : k0 = k'
      · subst h1
        have hk : ¬k = k0 := fun he => h0 he.symm
        simp [dictGet, hk]
      · simp [dictGet, h1, ih]

lemma dictGetD_dictAppend (d : List (String × List String))
    (k k' x : String) :
    dictGetD (dictAppend d k x) k' [] =
      dictGetD d k' [] ++ (if k = k' then [x] else []) := by
  unfold dictAppend dictGetD
  rw [dictGet_dictSet]
  by_cases h : k = k'
  · subst h
    simp
  · simp [h]

lemma dictGetD_alias_foldl (aliases : List String) (i : String) (k : String) :
    ∀ idx : List (String × List String),
      dictGetD (aliases.foldl
        (fun idx2 al => dictAppend idx2 (pyLower al) i) idx) k [] =
      dictGetD idx k [] ++
        List.replicate ((aliases.map pyLower).count k) i := by
  induction aliases with
  | nil => intro idx; simp
  | cons a rest ih =>
    intro idx
    simp only [List.foldl_cons, List.map_cons]
    rw [ih, dictGetD_dictAppend]
    by_cases h : pyLower a = k
    · simp [List.count_cons, h, List.replicate_succ, List.append_assoc]
    · simp [List.count_cons, h]

lemma name_index_add_to_index (c : LocationCache) (loc : Location)
    (k : String) :
    dictGetD (c.add_to_index loc).name_index k [] =
      dictGetD c.name_index k [] ++
        List.replicate ((nameKeys loc).count k) loc.id := by
  unfold LocationCache.add_to_index
  simp only
  rw [dictGetD_alias_foldl, dictGetD_dictAppend]
  unfold nameKeys
  by_cases h : pyLower loc.name = k
  · simp [List.count_cons, h, List.replicate_succ, List.append_assoc]
  · simp [List.count_cons, h]

lemma name_index_foldl (k : String) (locs : List Location) :
    ∀ c : LocationCache,
      dictGetD (locs.foldl LocationCache.add_to_index c).name_index k [] =
        dictGetD c.name_index k [] ++ nameEntries k locs := by
  induction locs with
  | nil => intro c; simp [nameEntries]
  | cons loc rest ih =>
    intro c
    simp only [List.foldl_cons, nameEntries]
    rw [ih, name_index_add_to_index, List.append_assoc]

lemma locations_foldl_not_mem (locs : List Location) (i : String)
    (h : ∀ M ∈ locs, M.id ≠ i) :
    ∀ c : LocationCache,
      dictGet (locs.foldl LocationCache.add_to_index c).locations i =
        dictGet c.locations i := by
  induction locs with
  | nil => intro c; rfl
  | cons loc rest ih =>
    intro c
    simp only [List.foldl_cons]
    rw [ih (fun M hM => h M (List.mem_cons_of_mem loc hM))]
    show dictGet (dictSet c.locations loc.id loc) i = dictGet c.locations i
    rw [dictGet_dictSet]
    simp [h loc (List.mem_cons_self loc rest)]

lemma locations_foldl_mem (locs : List Location) (L : Location)
    (huniq : ∀ M ∈ locs, M.id = L.id → M = L) (hL : L ∈ locs) :
    ∀ c : LocationCache,
      dictGet (locs.foldl LocationCache.add_to_index c).locations L.id =
        some L := by
  induction locs with
  | nil => simp at hL
  | cons loc rest ih =>
    intro c
    simp only [List.foldl_cons]
    by_cases hmem : L ∈ rest
    · exact ih (fun M hM hid => huniq M (List.mem_cons_of_mem loc hM) hid)
        hmem _
    · have hLl : L = loc := by
        rcases List.mem_cons.mp hL with he | hm
        · exact he
        · exact absurd hm hmem
      subst hLl
      have hrest : ∀ M ∈ rest, M.id ≠ L.id := by
        intro M hM hid
        have := huniq M (List.mem_cons_of_mem L hM) hid
        exact hmem (this ▸ hM)
      rw [locations_foldl_not_mem rest L.id hrest]
      show dictGet (dictSet c.locations L.id L) L.id = some L
      rw [dictGet_dictSet]
      simp

lemma nameEntries_all_eq (k : String) (locs : List Location) (L : Location)
    (hu : ∀ M ∈ locs, k ∈ nameKeys M → M = L) :
    ∀ x ∈ nameEntries k locs, x = L.id := by
  induction locs with
  | nil => simp [nameEntries]
  | cons loc rest ih =>
    intro x hx
    simp only [nameEntries, List.mem_append] at hx
    rcases hx with hx | hx
    · have hcount : 0 < (nameKeys loc).count k := by
        by_contra hc
        push_neg at hc
        interval_cases h : (nameKeys loc).count k
        · simp [h] at hx
      have hk : k ∈ nameKeys loc := by
        rw [← List.count_pos_iff_mem]
        exact hcount
      have := hu loc (List.mem_cons_self loc rest) hk
      rw [List.eq_of_mem_replicate hx, this]
    · exact ih (fun M hM hk => hu M (List.mem_cons_of_mem loc hM) hk) x hx

lemma nameEntries_ne_nil (k : String) (locs : List Location) (L : Location)
    (hL : L ∈ locs) (hk : k ∈ nameKeys L) : nameEntries k locs ≠ [] := by
  induction locs with
  | nil => simp at hL
  | cons loc rest ih =>
    simp only [nameEntries]
    rcases List.mem_cons.mp hL with he | hm
    · subst he
      have hcount : 0 < (nameKeys L).count k := List.count_pos_iff_mem.mpr hk
      intro habs
      rcases List.append_eq_nil.mp habs with ⟨h1, _⟩
      rw [List.replicate_eq_nil] at h1
      omega
    · intro habs
      rcases List.append_eq_nil.mp habs with ⟨_, h2⟩
      exact ih hm h2

lemma get_by_name_loaded (locs : List Location) (L : Location) (q : String)
    (hL : L ∈ locs)
    (hk : pyLower q ∈ nameKeys L)
    (huid : ∀ M ∈ locs, M.id = L.id → M = L)
    (huq : ∀ M ∈ locs, pyLower q ∈ nameKeys M → M = L) :
    LocationCache.get_by_name
      (locs.foldl LocationCache.add_to_index LocationCache.empty) q =
      some L := by
  unfold LocationCache.get_by_name
  have hids : dictGetD (locs.foldl LocationCache.add_to_index
      LocationCache.empty).name_index (pyLower q) [] =
      nameEntries (pyLower q) locs := by
    rw [name_index_foldl]
    rfl
  rw [hids]
  have hne := nameEntries_ne_nil (pyLower q) locs L hL hk
  obtain ⟨i0, t, hit⟩ := List.exists_cons_of_ne_nil hne
  rw [hit]
  have hi0 : i0 = L.id :=
    nameEntries_all_eq (pyLower q) locs L huq i0 (hit ▸ List.mem_cons_self i0 t)
  rw [hi0]
  simp only
  exact locations_foldl_mem locs L huid hL _

/-- C9 (amended): `get_by_name(A)` and `get_by_name(L.name)` return `L`
itself — hence the same identity — for every loaded gazetteer in which ids
are unique and no other location carries the lowercased alias `A` or the
lowercased name of `L` among its own name and aliases.  Without that
uniqueness, `get_by_name` returns the first location indexed under the
string, which can differ between the two lookups (see the
counterexample). -/
theorem get_by_name_alias_spec (locs : List Location) (L : Location)
    (A : String)
    (hL : L ∈ locs)
    (hA : A ∈ L.aliases)
    (huid : ∀ M ∈ locs, M.id = L.id → M = L)
    (huA : ∀ M ∈ locs, pyLower A ∈ nameKeys M → M = L)
    (huN : ∀ M ∈ locs, pyLower L.name ∈ nameKeys M → M = L) :
    LocationCache.get_by_name
      (locs.foldl LocationCache.add_to_index LocationCache.empty) A =
      some L ∧
    LocationCache.get_by_name
      (locs.foldl LocationCache.add_to_index LocationCache.empty) L.name =
      some L := by
  constructor
  · refine get_by_name_loaded locs L A hL ?_ huid huA
    unfold nameKeys
    exact List.mem_cons_of_mem _ (List.mem_map_of_mem pyLower hA)
  · refine get_by_name_loaded locs L L.name hL ?_ huid huN
    unfold nameKeys
    exact List.mem_cons_self _ _

/-- C9 counterexample: in a loaded gazetteer where location "b" carries the
alias "a" while another location is named "a", `get_by_name` on the alias
returns the other location, not the alias owner — the claimed identity
fails for this loaded gazetteer. -/
theorem get_by_name_alias_counterexample :
    "a" ∈ aliasLocB.aliases ∧
    LocationCache.get_by_name aliasCache "a" = some aliasLocA ∧
    LocationCache.get_by_name aliasCache "b" = some aliasLocB ∧
    aliasLocA ≠ aliasLocB := by
  with_unfolding_all decide

/-- Witness for C9 on a collision-free gazetteer: the alias and the name
both resolve to the same location. -/
theorem get_by_name_alias_spec_witness :
    LocationCache.get_by_name aliasCacheSolo "a" = some aliasLocB ∧
    LocationCache.get_by_name aliasCacheSolo "b" = some aliasLocB :=
  get_by_name_alias_spec [aliasLocB] aliasLocB "a"
    (by with_unfolding_all decide) (by with_unfolding_all decide)
    (by with_unfolding_all decide) (by with_unfolding_all decide)
    (by with_unfolding_all decide)

/-! ## C5/C6: polyline codec round trip -/

lemma lor_shiftLeft_eq_add (a m s : ℕ) (h : a < 2 ^ s) :
    a ||| (m <<< s) = a + m * 2 ^ s := by
  induction s generalizing a m with
  | zero =>
    interval_cases a
    simp [Nat.shiftLeft_eq]
  | succ s ih =>
    have hm : m <<< (s + 1) = Nat.bit false (m <<< s) := by
      simp [Nat.shiftLeft_eq, Nat.bit_val, pow_succ]
      ring
    have hdiv : a.div2 < 2 ^ s := by
      have h2 : a.div2 = a / 2 := Nat.div2_val a
      rw [h2]
      omega
    calc a ||| (m <<< (s + 1))
        = Nat.bit a.bodd a.div2 ||| Nat.bit false (m <<< s) := by
          rw [Nat.bit_decomp, ← hm]
      _ = Nat.bit (a.bodd || false) (a.div2 ||| (m <<< s)) :=
          Nat.lor_bit a.bodd a.div2 false (m <<< s)
      _ = Nat.bit a.bodd (a.div2 + m * 2 ^ s) := by
          rw [ih _ _ hdiv]
          simp
      _ = a + m * 2 ^ (s + 1) := by
          have hb := Nat.bodd_add_div2 a
          have h2 : m * 2 ^ (s + 1) = 2 * (m * 2 ^ s) := by ring
          have h3 : a.div2 = a / 2 := Nat.div2_val a
          simp only [Nat.bit_val]
          omega

lemma and_31_eq_mod (u : ℕ) : u &&& 31 = u % 32 := by
  have h := Nat.and_pow_two_sub_one_eq_mod u 5
  norm_num at h
  exact h

lemma shiftRight_5_eq_div (u : ℕ) : u >>> 5 = u / 32 := by
  rw [Nat.shiftRight_eq_div_pow]

lemma toNat_ofNat_small (n : ℕ) (h : n < 55296) :
    (Char.ofNat n).toNat = n := by
  simp [Char.ofNat, Nat.isValidChar, h, Char.ofNatAux, Char.toNat,
    UInt32.toNat, Nat.mod_eq_of_lt (by omega : n < 4294967296)]

lemma or_32_small (v : ℕ) (h : v < 32) : 32 ||| v = 32 + v := by
  rw [Nat.lor_comm]
  have h2 := lor_shiftLeft_eq_add v 1 5 (by omega)
  rw [Nat.shiftLeft_eq] at h2
  norm_num at h2
  rw [h2]
  omega

lemma readVarint_encodeChunks (u : ℕ) :
    ∀ (shift acc : ℕ) (rest : List Char), acc < 2 ^ shift →
      readVarint (encodeNatChunks u ++ rest) shift acc =
        some (acc + u * 2 ^ shift, rest) := by
  induction u using Nat.strong_induction_on with
  | _ u ih =>
    intro shift acc rest hacc
    rw [encodeNatChunks]
    by_cases h32 : 0x20 ≤ u
    · rw [if_pos h32]
      have hmod : u &&& 0x1f = u % 32 := and_31_eq_mod u
      have hb : ((0x20 ||| (u &&& 0x1f)) + 63) < 55296 := by
        rw [hmod]
        have := or_32_small (u % 32) (Nat.mod_lt u (by omega))
        omega
      simp only [List.cons_append, readVarint]
      rw [toNat_ofNat_small _ hb]
      have hbval : (0x20 ||| (u &&& 0x1f)) + 63 - 63 = 32 + u % 32 := by
        rw [hmod, or_32_small (u % 32) (Nat.mod_lt u (by omega))]
        omega
      rw [hbval]
      have hnotlt : ¬(32 + u % 32 < 0x20) := by omega
      rw [if_neg hnotlt]
      have hb31 : (32 + u % 32) &&& 0x1f = u % 32 := by
        rw [and_31_eq_mod]
        omega
      rw [hb31]
      have hacc' : acc ||| (u % 32) <<< shift = acc + (u % 32) * 2 ^ shift :=
        lor_shiftLeft_eq_add acc (u % 32) shift hacc
      rw [hacc']
      have hlt : u >>> 5 < u := by
        rw [shiftRight_5_eq_div]
        exact Nat.div_lt_self (by omega) (by norm_num)
      have hacc2 : acc + (u % 32) * 2 ^ shift < 2 ^ (shift + 5) := by
        have hm32 : u % 32 < 32 := Nat.mod_lt u (by omega)
        have : 2 ^ (shift + 5) = 2 ^ shift * 32 := by ring
        nlinarith [pow_pos (show (0:ℕ) < 2 by norm_num) shift]
      rw [show (encodeNatChunks (u >>> 5)).append rest =
        encodeNatChunks (u >>> 5) ++ rest from rfl]
      rw [ih (u >>> 5) hlt (shift + 5) _ rest hacc2]
      have hdiv : u >>> 5 = u / 32 := shiftRight_5_eq_div u
      have hsplit : u % 32 + 32 * (u / 32) = u := Nat.mod_add_div u 32
      have hpow : 2 ^ (shift + 5) = 2 ^ shift * 32 := by ring
      have hxy : acc + u % 32 * 2 ^ shift + u >>> 5 * 2 ^ (shift + 5) =
          acc + u * 2 ^ shift := by
        calc acc + u % 32 * 2 ^ shift + u >>> 5 * 2 ^ (shift + 5)
            = acc + (u % 32 + 32 * (u / 32)) * 2 ^ shift := by
              rw [hdiv, hpow]
              ring
          _ = acc + u * 2 ^ shift := by rw [hsplit]
      rw [hxy]
    · rw [if_neg h32]
      have hu : u < 32 := by omega
      simp only [List.cons_append, readVarint]
      rw [toNat_ofNat_small _ (by omega)]
      have hbval : u + 63 - 63 = u := by omega
      rw [hbval]
      have hb31 : u &&& 0x1f = u := by
        rw [and_31_eq_mod]
        omega
      rw [if_pos (by omega : u < 0x20), hb31,
        lor_shiftLeft_eq_add acc u shift hacc]
      rfl

lemma unzigzag_zigzag (v : ℤ) : unzigzag (zigzag v) = v := by
  unfold zigzag unzigzag
  simp only [Nat.and_one_is_mod, Nat.shiftRight_eq_div_pow, pow_one]
  by_cases hv : v < 0
  · rw [if_pos hv]
    have hnn : (0:ℤ) ≤ -(2 * v) - 1 := by omega
    have hcast : (((-(2 * v) - 1).toNat : ℤ)) = -(2 * v) - 1 :=
      Int.toNat_of_nonneg hnn
    split_ifs with hpar
    · omega
    · omega
  · rw [if_neg hv]
    have hnn : (0:ℤ) ≤ 2 * v := by omega
    have hcast : (((2 * v).toNat : ℤ)) = 2 * v := Int.toNat_of_nonneg hnn
    split_ifs with hpar
    · omega
    · omega

lemma encodeNatChunks_ne_nil (u : ℕ) : encodeNatChunks u ≠ [] := by
  rw [encodeNatChunks]
  split <;> simp

lemma encode_value_ne_nil (v : ℤ) : encode_value v ≠ [] :=
  encodeNatChunks_ne_nil (zigzag v)

lemma decodeLoop_nil (fuel : ℕ) (lat lng : ℤ) :
    decodeLoop (fuel + 1) [] lat lng = some [] := rfl

lemma decodeLoop_step (fuel : ℕ) (c0 : Char) (cs : List Char) (lat lng : ℤ)
    (u1 u2 : ℕ) (r1 r2 : List Char)
    (h1 : readVarint (c0 :: cs) 0 0 = some (u1, r1))
    (h2 : readVarint r1 0 0 = some (u2, r2)) :
    decodeLoop (fuel + 1) (c0 :: cs) lat lng =
      match decodeLoop fuel r2 (lat + unzigzag u1) (lng + unzigzag u2) with
      | none => none
      | some tl => some ((((lat + unzigzag u1 : ℤ) : ℚ) / 100000,
          ((lng + unzigzag u2 : ℤ) : ℚ) / 100000) :: tl) := by
  show decodeStep (decodeLoop fuel) (c0 :: cs) lat lng = _
  unfold decodeStep
  simp only [h1, h2]

lemma encGo_length (coords : List (ℚ × ℚ)) :
    ∀ pl pg : ℤ, 2 * coords.length ≤ (encGo coords pl pg).length := by
  induction coords with
  | nil => intro pl pg; simp [encGo]
  | cons p tl ih =>
    intro pl pg
    rw [encGo]
    simp only [List.length_append, List.length_cons]
    have e1 : 0 < (encode_value (pyRound (p.1 * 100000) - pl)).length :=
      List.length_pos.mpr (encode_value_ne_nil _)
    have e2 : 0 < (encode_value (pyRound (p.2 * 100000) - pg)).length :=
      List.length_pos.mpr (encode_value_ne_nil _)
    have e3 := ih (pyRound (p.1 * 100000)) (pyRound (p.2 * 100000))
    omega

lemma decodeLoop_encGo (coords : List (ℚ × ℚ)) :
    ∀ (fuel : ℕ) (pl pg : ℤ), coords.length < fuel →
      decodeLoop fuel (encGo coords pl pg) pl pg =
        some (coords.map (fun p => ((pyRound (p.1 * 100000) : ℚ) / 100000,
          (pyRound (p.2 * 100000) : ℚ) / 100000))) := by
  induction coords with
  | nil =>
    intro fuel pl pg hf
    cases fuel with
    | zero => omega
    | succ f =>
      rw [encGo, decodeLoop_nil]
      rfl
  | cons p tl ih =>
    intro fuel pl pg hf
    cases fuel with
    | zero => omega
    | succ f =>
      have henc : encGo (p :: tl) pl pg =
          encode_value (pyRound (p.1 * 100000) - pl) ++
            (encode_value (pyRound (p.2 * 100000) - pg) ++
              encGo tl (pyRound (p.1 * 100000)) (pyRound (p.2 * 100000))) := by
        rw [encGo]
        simp [List.append_assoc]
      obtain ⟨c0, cs0, he⟩ :=
        List.exists_cons_of_ne_nil (encode_value_ne_nil
          (pyRound (p.1 * 100000) - pl))
      rw [henc, he, List.cons_append]
      have h1 : readVarint (c0 :: (cs0 ++
          (encode_value (pyRound (p.2 * 100000) - pg) ++
            encGo tl (pyRound (p.1 * 100000)) (pyRound (p.2 * 100000))))) 0 0 =
          some (zigzag (pyRound (p.1 * 100000) - pl),
            encode_value (pyRound (p.2 * 100000) - pg) ++
              encGo tl (pyRound (p.1 * 100000)) (pyRound (p.2 * 100000))) := by
        have hr := readVarint_encodeChunks
          (zigzag (pyRound (p.1 * 100000) - pl)) 0 0
          (encode_value (pyRound (p.2 * 100000) - pg) ++
            encGo tl (pyRound (p.1 * 100000)) (pyRound (p.2 * 100000)))
          (by norm_num)
        unfold encode_value at he
        rw [he, List.cons_append] at hr
        simpa using hr
      have h2 : readVarint (encode_value (pyRound (p.2 * 100000) - pg) ++
          encGo tl (pyRound (p.1 * 100000)) (pyRound (p.2 * 100000))) 0 0 =
          some (zigzag (pyRound (p.2 * 100000) - pg),
            encGo tl (pyRound (p.1 * 100000)) (pyRound (p.2 * 100000))) := by
        have hr := readVarint_encodeChunks
          (zigzag (pyRound (p.2 * 100000) - pg)) 0 0
          (encGo tl (pyRound (p.1 * 100000)) (pyRound (p.2 * 100000)))
          (by norm_num)
        unfold encode_value
        simpa using hr
      rw [decodeLoop_step f c0 _ pl pg _ _ _ _ h1 h2]
      rw [unzigzag_zigzag, unzigzag_zigzag]
      have hl1 : pl + (pyRound (p.1 * 100000) - pl) =
          pyRound (p.1 * 100000) := by ring
      have hl2 : pg + (pyRound (p.2 * 100000) - pg) =
          pyRound (p.2 * 100000) := by ring
      have hlen : tl.length < f := by
        simp only [List.length_cons] at hf
        omega
      rw [hl1, hl2, ih f (pyRound (p.1 * 100000)) (pyRound (p.2 * 100000))
        hlen]
      rfl

lemma decode_encode_polyline (coords : List (ℚ × ℚ)) :
    decode_polyline (encode_polyline coords) =
      some (coords.map (fun p => ((pyRound (p.1 * 100000) : ℚ) / 100000,
        (pyRound (p.2 * 100000) : ℚ) / 100000))) := by
  unfold decode_polyline encode_polyline
  have hdata : (String.mk (encGo coords 0 0)).data = encGo coords 0 0 := rfl
  rw [hdata]
  apply decodeLoop_encGo
  have := encGo_length coords 0 0
  omega

/-- C5: for every non-empty coordinate list within ±90/±180 bounds,
decoding the encoded polyline returns the original list with each
component rounded to the 1e-5 grid (the `round(x * 1e5) / 1e5`
quantisation the encoding applies). -/
theorem polyline_roundtrip (coords : List (ℚ × ℚ))
    (_hne : coords ≠ [])
    (_hbound : ∀ p ∈ coords, |p.1| ≤ 90 ∧ |p.2| ≤ 180) :
    decode_polyline (encode_polyline coords) =
      some (coords.map (fun p => ((pyRound (p.1 * 100000) : ℚ) / 100000,
        (pyRound (p.2 * 100000) : ℚ) / 100000))) :=
  decode_encode_polyline coords

/-- Witness for C5 at the concrete list `[(1/2, 3)]`. -/
theorem polyline_roundtrip_witness :
    ([((1:ℚ)/2, 3)] ≠ []) ∧
    decode_polyline (encode_polyline [((1:ℚ)/2, 3)]) =
      some [((pyRound ((1:ℚ)/2 * 100000) : ℚ) / 100000,
             (pyRound ((3:ℚ) * 100000) : ℚ) / 100000)] := by
  constructor
  · simp
  · have h := polyline_roundtrip [((1:ℚ)/2, 3)] (by simp) ?_
    · simpa using h
    · intro p hp
      simp only [List.mem_singleton] at hp
      rw [hp]
      constructor
      · rw [abs_of_nonneg (by norm_num)]
        norm_num
      · rw [abs_of_nonneg (by norm_num)]
        norm_num

lemma decodeAllCoords_pair (p1 p2 : String) (a1 a2 : ℚ × ℚ)
    (t1 t2 : List (ℚ × ℚ))
    (h1 : decode_polyline p1 = some (a1 :: t1))
    (h2 : decode_polyline p2 = some (a2 :: t2))
    (hj : (a1 :: t1).getLast? = (a2 :: t2).head?) :
    decodeAllCoords [p1, p2] [] = .ok ((a1 :: t1) ++ t2) := by
  have hn1 : ([] : List (ℚ × ℚ)).getLast? ≠ (a1 :: t1).head? := by simp
  show decodeAllStep (decodeAllCoords [p2]) p1 [] = _
  unfold decodeAllStep
  simp only [h1, List.isEmpty_cons, Bool.false_eq_true, if_false,
    if_neg hn1, List.nil_append]
  show decodeAllStep (decodeAllCoords []) p2 (a1 :: t1) = _
  unfold decodeAllStep
  simp only [h2, List.isEmpty_cons, Bool.false_eq_true, if_false,
    if_pos hj, List.tail_cons]
  rfl

/-- C6: `_combine_polylines` returns no polyline for an empty list, returns
a singleton list's polyline unchanged, and for two decodable legs sharing
their junction point returns the re-encoding of the concatenation with the
duplicate junction dropped, whose decoding has length `|c1| + |c2| - 1`. -/
theorem combine_polylines_spec :
    (combine_polylines [] = .ok none) ∧
    (∀ p, combine_polylines [p] = .ok (some p)) ∧
    (∀ p1 p2 c1 c2,
      decode_polyline p1 = some c1 → decode_polyline p2 = some c2 →
      c1 ≠ [] → c2 ≠ [] → c1.getLast? = c2.head? →
      combine_polylines [p1, p2] =
        .ok (some (encode_polyline (c1 ++ c2.tail))) ∧
      ∃ cc, decode_polyline (encode_polyline (c1 ++ c2.tail)) = some cc ∧
        cc.length = c1.length + c2.length - 1) := by
  refine ⟨rfl, fun p => rfl, ?_⟩
  intro p1 p2 c1 c2 h1 h2 hne1 hne2 hj
  obtain ⟨a1, t1, rfl⟩ := List.exists_cons_of_ne_nil hne1
  obtain ⟨a2, t2, rfl⟩ := List.exists_cons_of_ne_nil hne2
  have hd := decodeAllCoords_pair p1 p2 a1 a2 t1 t2 h1 h2 hj
  constructor
  · simp only [combine_polylines, hd]
    simp
  · refine ⟨_, decode_encode_polyline ((a1 :: t1) ++ t2), ?_⟩
    simp only [List.length_map, List.length_append, List.length_cons,
      List.tail_cons]
    omega

lemma pyRound_intCast (n : ℤ) : pyRound (n : ℚ) = n := by
  unfold pyRound
  rw [Int.floor_intCast]
  norm_num

lemma roundGrid (q : ℚ) (n : ℤ) (h : q * 100000 = (n : ℚ)) :
    ((pyRound (q * 100000) : ℚ)) / 100000 = q := by
  rw [h, pyRound_intCast, ← h]
  exact mul_div_cancel_right₀ q (by norm_num)

lemma decode_encode_concrete1 :
    decode_polyline (encode_polyline [((1:ℚ), 2), (3, 4)]) =
      some [((1:ℚ), 2), (3, 4)] := by
  rw [decode_encode_polyline]
  simp only [List.map_cons, List.map_nil]
  rw [roundGrid 1 100000 (by norm_num), roundGrid 2 200000 (by norm_num),
    roundGrid 3 300000 (by norm_num), roundGrid 4 400000 (by norm_num)]

lemma decode_encode_concrete2 :
    decode_polyline (encode_polyline [((3:ℚ), 4), (5, 6)]) =
      some [((3:ℚ), 4), (5, 6)] := by
  rw [decode_encode_polyline]
  simp only [List.map_cons, List.map_nil]
  rw [roundGrid 3 300000 (by norm_num), roundGrid 4 400000 (by norm_num),
    roundGrid 5 500000 (by norm_num), roundGrid 6 600000 (by norm_num)]

/-- Witness for C6 at two concrete two-point legs whose junction point
coincides. -/
theorem combine_polylines_spec_witness :
    combine_polylines [encode_polyline [((1:ℚ), 2), (3, 4)],
        encode_polyline [((3:ℚ), 4), (5, 6)]] =
      .ok (some (encode_polyline ([((1:ℚ), 2), (3, 4)] ++
        [((3:ℚ), 4), (5, 6)].tail))) ∧
    (∃ cc, decode_polyline (encode_polyline ([((1:ℚ), 2), (3, 4)] ++
        [((3:ℚ), 4), (5, 6)].tail)) = some cc ∧
      cc.length = [((1:ℚ), 2), (3, 4)].length +
        [((3:ℚ), 4), (5, 6)].length - 1) :=
  combine_polylines_spec.2.2 (encode_polyline [((1:ℚ), 2), (3, 4)])
    (encode_polyline [((3:ℚ), 4), (5, 6)]) [((1:ℚ), 2), (3, 4)]
    [((3:ℚ), 4), (5, 6)] decode_encode_concrete1 decode_encode_concrete2
    (by simp) (by simp) rfl

/-! ## C4: exact vs substring ranking in `search` -/

lemma scoreOf_add_score (m : LocationCache.ScoreMap) (i : String) (s : ℚ)
    (r : String) (i' : String) :
    scoreOf (LocationCache.add_score m i s r) i' =
      scoreOf m i' + (if i = i' then s else 0) := by
  unfold LocationCache.add_score scoreOf dictGetD dictMem
  cases hget : dictGet m i with
  | none =>
    simp only [hget, Option.isSome_none, Bool.false_eq_true, if_false,
      dictGet_dictSet, if_pos rfl, Option.getD_some]
    by_cases h : i = i'
    · subst h
      simp [dictGet_dictSet, hget]
    · simp [dictGet_dictSet, h]
  | some p =>
    simp only [hget, Option.isSome_some, if_true, dictGet_dictSet]
    by_cases h : i = i'
    · subst h
      simp [dictGet_dictSet, hget]
    · simp [dictGet_dictSet, h]

lemma scoreOf_addScoreAll (ids : List String) (s : ℚ) (r : String)
    (i' : String) :
    ∀ m, scoreOf (LocationCache.addScoreAll m ids s r) i' =
      scoreOf m i' + s * (ids.count i') := by
  induction ids with
  | nil => intro m; simp [LocationCache.addScoreAll]
  | cons x rest ih =>
    intro m
    show scoreOf (LocationCache.addScoreAll
      (LocationCache.add_score m x s r) rest s r) i' = _
    rw [ih, scoreOf_add_score, List.count_cons]
    by_cases h : x = i'
    · simp [h]
      ring
    · have hbeq : (x == i') = false := by simp [h]
      simp [h, hbeq]

lemma scoreOf_guardFold (ids : List String) (exact2 : List String)
    (r2 : String) (i' : String) :
    ∀ m, scoreOf (ids.foldl (fun m3 loc_id =>
        if loc_id ∈ exact2 then m3
        else LocationCache.add_score m3 loc_id 8 r2) m) i' =
      scoreOf m i' +
        (if i' ∈ exact2 then 0 else 8 * (ids.count i' : ℚ)) := by
  induction ids with
  | nil => intro m; simp
  | cons x rest ih =>
    intro m
    simp only [List.foldl_cons]
    rw [ih]
    by_cases hx : x ∈ exact2
    · rw [if_pos hx]
      have : (x == i') = true → i' ∈ exact2 := by
        intro hbeq
        rw [beq_iff_eq] at hbeq
        exact hbeq ▸ hx
      by_cases hi : i' ∈ exact2
      · simp [hi]
      · have hxne : (x == i') = false := by
          by_contra hc
          simp only [Bool.not_eq_false] at hc
          exact hi (this hc)
        simp [hi, List.count_cons, hxne]
    · rw [if_neg hx, scoreOf_add_score]
      by_cases hi : i' ∈ exact2
      · have hxne : ¬x = i' := fun he => hx (he ▸ hi)
        simp [hi, hxne]
      · by_cases hxe : x = i'
        · subst hxe
          simp [hi, List.count_cons]
          ring
        · have hbeq : (x == i') = false := by simp [hxe]
          simp [hi, hxe, List.count_cons, hbeq]

lemma scoreOf_substrFold (entries : List (String × List String))
    (k : String) (exact2 : List String) (r2 : String) (i' : String) :
    ∀ m, scoreOf (entries.foldl (fun m2 entry =>
        if pyIn k entry.1 || pyIn entry.1 k then
          entry.2.foldl (fun m3 loc_id =>
            if loc_id ∈ exact2 then m3
            else LocationCache.add_score m3 loc_id 8 r2) m2
        else m2) m) i' =
      scoreOf m i' + (if i' ∈ exact2 then 0 else
        8 * (((entries.map (fun entry =>
          if pyIn k entry.1 || pyIn entry.1 k then entry.2.count i'
          else 0)).sum : ℕ) : ℚ)) := by
  induction entries with
  | nil => intro m; simp
  | cons e rest ih =>
    intro m
    simp only [List.foldl_cons, List.map_cons, List.sum_cons]
    by_cases hmatch : pyIn k e.1 || pyIn e.1 k
    · rw [if_pos hmatch, ih, scoreOf_guardFold]
      by_cases hi : i' ∈ exact2
      · simp [hi, hmatch]
      · simp only [if_neg hi, if_pos hmatch]
        push_cast
        ring
    · rw [if_neg hmatch, ih]
      by_cases hi : i' ∈ exact2
      · simp [hi]
      · simp only [if_neg hi, Bool.not_eq_true] at hmatch ⊢
        rw [if_neg (by simp [hmatch])]
        push_cast
        ring

lemma dictGetD_eq_nil_of_not_mem {α : Type} (d : List (String × α)) (k : String)
    (dflt : α) (h : ¬dictMem d k = true) : dictGetD d k dflt = dflt := by
  unfold dictMem at h
  unfold dictGetD
  cases hg : dictGet d k with
  | none => rfl
  | some v => rw [hg] at h; simp at h

lemma scoreOf_placeTermScores (c : LocationCache) (t : String) (i' : String)
    (m : LocationCache.ScoreMap) :
    scoreOf (LocationCache.placeTermScores c m t) i' =
      scoreOf m i' +
      15 * (((dictGetD c.name_index (pyLower t) []).count i' : ℕ) : ℚ) +
      (if i' ∈ dictGetD c.name_index (pyLower t) [] then 0
        else 8 * ((subOcc c (pyLower t) i' : ℕ) : ℚ)) := by
  unfold LocationCache.placeTermScores subOcc
  rw [scoreOf_substrFold]
  by_cases hmem : dictMem c.name_index (pyLower t) = true
  · rw [if_pos hmem, scoreOf_addScoreAll]
  · rw [if_neg hmem, dictGetD_eq_nil_of_not_mem _ _ _ hmem]
    simp

lemma mem_insertDesc {α : Type} (key : α → ℚ) (x : α) (l : List α) (a : α) :
    a ∈ insertDesc key x l ↔ a = x ∨ a ∈ l := by
  induction l with
  | nil => simp [insertDesc]
  | cons y ys ih =>
    unfold insertDesc
    by_cases h : key y < key x
    · simp [h]
    · simp only [if_neg h, List.mem_cons, ih]
      tauto

lemma pairwise_insertDesc {α : Type} (key : α → ℚ) (x : α) (l : List α)
    (h : l.Pairwise (fun a b => key b ≤ key a)) :
    (insertDesc key x l).Pairwise (fun a b => key b ≤ key a) := by
  induction l with
  | nil => simp [insertDesc]
  | cons y ys ih =>
    rw [List.pairwise_cons] at h
    unfold insertDesc
    by_cases hlt : key y < key x
    · rw [if_pos hlt]
      constructor
      · intro b hb
        rcases List.mem_cons.mp hb with hb | hb
        · exact le_of_lt (hb ▸ hlt)
        · exact le_trans (h.1 b hb) (le_of_lt hlt)
      · exact List.pairwise_cons.mpr h
    · rw [if_neg hlt]
      constructor
      · intro b hb
        rcases (mem_insertDesc key x ys b).mp hb with hb | hb
        · exact hb ▸ le_of_not_lt hlt
        · exact h.1 b hb
      · exact ih h.2

lemma pairwise_sortOnDesc {α : Type} (key : α → ℚ) (l : List α) :
    (sortOnDesc key l).Pairwise (fun a b => key b ≤ key a) := by
  unfold sortOnDesc
  induction l with
  | nil => simp
  | cons y ys ih => exact pairwise_insertDesc key y _ ih

lemma mem_sortOnDesc {α : Type} (key : α → ℚ) (l : List α) (a : α) :
    a ∈ sortOnDesc key l ↔ a ∈ l := by
  unfold sortOnDesc
  induction l with
  | nil => simp
  | cons y ys ih =>
    simp only [List.foldr_cons, mem_insertDesc, List.mem_cons]
    rw [ih]

lemma dictGet_eq_none_iff {α : Type} (d : List (String × α)) (k : String) :
    dictGet d k = none ↔ k ∉ d.map Prod.fst := by
  induction d with
  | nil => simp [dictGet]
  | cons e t ih =>
    unfold dictGet
    by_cases h : e.1 = k
    · simp [h]
    · simp only [List.map_cons, List.mem_cons, h, if_neg h, ih]
      tauto

lemma keys_dictSet {α : Type} (d : List (String × α)) (k : String) (v : α) :
    (dictSet d k v).map Prod.fst =
      if dictMem d k then d.map Prod.fst else d.map Prod.fst ++ [k] := by
  induction d with
  | nil => simp [dictSet, dictMem, dictGet]
  | cons e t ih =>
    unfold dictSet dictMem dictGet
    by_cases h : e.1 = k
    · simp [h]
    · simp only [if_neg h, List.map_cons, ih, dictMem]
      by_cases hm : (dictGet t k).isSome
      · simp [hm]
      · simp [hm]

lemma keys_add_score (m : LocationCache.ScoreMap) (i : String) (s : ℚ)
    (r : String) :
    (LocationCache.add_score m i s r).map Prod.fst =
      if dictMem m i then m.map Prod.fst else m.map Prod.fst ++ [i] := by
  unfold LocationCache.add_score
  by_cases h : dictMem m i
  · rw [if_pos h, if_pos h, keys_dictSet, if_pos h]
  · rw [if_neg h, if_neg h, keys_dictSet, keys_dictSet, if_neg h]
    have : dictMem (dictSet m i ((0 : ℚ), ([] : List String))) i = true := by
      unfold dictMem
      rw [dictGet_dictSet, if_pos rfl]
      rfl
    rw [if_pos this]

lemma nodup_keys_add_score (m : LocationCache.ScoreMap) (i : String) (s : ℚ)
    (r : String) (h : (m.map Prod.fst).Nodup) :
    ((LocationCache.add_score m i s r).map Prod.fst).Nodup := by
  rw [keys_add_score]
  by_cases hm : dictMem m i
  · rwa [if_pos hm]
  · rw [if_neg hm]
    have hni : i ∉ m.map Prod.fst := by
      rw [← dictGet_eq_none_iff]
      unfold dictMem at hm
      cases hg : dictGet m i with
      | none => rfl
      | some v => rw [hg] at hm; simp at hm
    simp [List.nodup_append, h, hni]

lemma nodup_keys_foldl {β : Type} (f : LocationCache.ScoreMap → β →
      LocationCache.ScoreMap)
    (hf : ∀ m b, (m.map Prod.fst).Nodup → ((f m b).map Prod.fst).Nodup)
    (l : List β) :
    ∀ m, (m.map Prod.fst).Nodup → ((l.foldl f m).map Prod.fst).Nodup := by
  induction l with
  | nil => intro m hm; exact hm
  | cons b t ih => intro m hm; exact ih (f m b) (hf m b hm)

lemma nodup_keys_addScoreAll (m : LocationCache.ScoreMap) (ids : List String)
    (s : ℚ) (r : String) (h : (m.map Prod.fst).Nodup) :
    ((LocationCache.addScoreAll m ids s r).map Prod.fst).Nodup :=
  nodup_keys_foldl _ (fun m' b hm => nodup_keys_add_score m' b s r hm) ids m h

lemma nodup_keys_placeTermScores (c : LocationCache) (t : String)
    (m : LocationCache.ScoreMap) (h : (m.map Prod.fst).Nodup) :
    ((LocationCache.placeTermScores c m t).map Prod.fst).Nodup := by
  unfold LocationCache.placeTermScores
  apply nodup_keys_foldl
  · intro m' e hm
    by_cases hmatch : pyIn (pyLower t) e.1 || pyIn e.1 (pyLower t)
    · rw [if_pos hmatch]
      apply nodup_keys_foldl _ _ e.2 m' hm
      intro m2 loc_id hm2
      by_cases hx : loc_id ∈ dictGetD c.name_index (pyLower t) []
      · rwa [if_pos hx]
      · rw [if_neg hx]
        exact nodup_keys_add_score m2 loc_id 8 _ hm2
    · rwa [if_neg hmatch]
  · by_cases hmem : dictMem c.name_index (pyLower t)
    · rw [if_pos hmem]
      exact nodup_keys_addScoreAll m _ 15 _ h
    · rwa [if_neg hmem]

lemma dictGet_of_mem_nodup {α : Type} (d : List (String × α)) (kv : String × α)
    (hmem : kv ∈ d) (hnd : (d.map Prod.fst).Nodup) :
    dictGet d kv.1 = some kv.2 := by
  induction d with
  | nil => simp at hmem
  | cons e t ih =>
    rw [List.map_cons, List.nodup_cons] at hnd
    rcases List.mem_cons.mp hmem with h | h
    · subst h
      unfold dictGet
      rw [if_pos rfl]
    · unfold dictGet
      by_cases he : e.1 = kv.1
      · exfalso
        apply hnd.1
        rw [he]
        exact List.mem_map.mpr ⟨kv, h, rfl⟩
      · rw [if_neg he]
        exact ih h hnd.2

lemma dictGet_mem_of_eq_some {α : Type} (d : List (String × α)) (k : String)
    (v : α) (h : dictGet d k = some v) : (k, v) ∈ d := by
  induction d with
  | nil => simp [dictGet] at h
  | cons e t ih =>
    unfold dictGet at h
    by_cases he : e.1 = k
    · rw [if_pos he] at h
      have hv : e.2 = v := Option.some.inj h
      have hkv : (k, v) = e := by
        obtain ⟨e1, e2⟩ := e
        simp only at he hv
        rw [he, hv]
      rw [hkv]
      exact List.mem_cons_self e t
    · rw [if_neg he] at h
      exact List.mem_cons_of_mem e (ih h)
lemma search_place_only (c : LocationCache) (t : String) (limit : ℕ) :
    c.search [t] [] [] [] "" limit =
      ((sortOnDesc (fun entry => entry.2.1)
        (LocationCache.placeTermScores c [] t)).take limit).filterMap
        (fun entry => (dictGet c.locations entry.1).map (fun loc =>
          ⟨loc, entry.2.1, entry.2.2⟩)) := by
  unfold LocationCache.search
  simp

lemma search_result_score (c : LocationCache) (t : String) (limit : ℕ)
    (hwf : ∀ kv ∈ c.locations, (Prod.snd kv).id = kv.1)
    (r : SearchResult) (hr : r ∈ c.search [t] [] [] [] "" limit) :
    r.score = scoreOf (LocationCache.placeTermScores c [] t)
      r.location.id := by
  rw [search_place_only] at hr
  obtain ⟨e, he, hfe⟩ := List.mem_filterMap.mp hr
  obtain ⟨loc, hloc, hcons⟩ := Option.map_eq_some'.mp hfe
  have hid : loc.id = e.1 := hwf (e.1, loc) (dictGet_mem_of_eq_some _ _ _ hloc)
  have hescores : e ∈ LocationCache.placeTermScores c [] t := by
    have hsub : e ∈ sortOnDesc (fun entry => entry.2.1)
        (LocationCache.placeTermScores c [] t) :=
      List.Sublist.mem he (List.take_sublist limit _)
    exact (mem_sortOnDesc _ _ e).mp hsub
  have hnd := nodup_keys_placeTermScores c t [] (by simp)
  have hget : dictGet (LocationCache.placeTermScores c [] t) e.1 =
      some e.2 := dictGet_of_mem_nodup _ e hescores hnd
  rw [← hcons]
  show e.2.1 = scoreOf (LocationCache.placeTermScores c [] t) loc.id
  rw [hid]
  unfold scoreOf
  rw [hget]
  rfl

lemma search_out_pairwise (c : LocationCache) (t : String) (limit : ℕ) :
    (c.search [t] [] [] [] "" limit).Pairwise
      (fun a b => b.score ≤ a.score) := by
  rw [search_place_only, List.pairwise_filterMap]
  have hp : ((sortOnDesc (fun entry => entry.2.1)
      (LocationCache.placeTermScores c [] t)).take limit).Pairwise
      (fun e e' => e'.2.1 ≤ e.2.1) :=
    List.Pairwise.sublist (List.take_sublist limit _)
      (pairwise_sortOnDesc _ _)
  refine hp.imp ?_
  intro e e' hle r hr r' hr'
  obtain ⟨loc, _, hcons⟩ := Option.map_eq_some'.mp (Option.mem_def.mp hr)
  obtain ⟨loc', _, hcons'⟩ := Option.map_eq_some'.mp (Option.mem_def.mp hr')
  rw [← hcons, ← hcons']
  exact hle

/-- C4: in `LocationCache.search`, an exact (case-insensitive) name/alias
match contributes +15 per filter term and a substring name match +8, scores
accumulate additively, and — provided the substring-matched candidate
collects at most one +8 award for the term — the exactly-named location is
ranked strictly before it in the descending result list (for well-formed
id tables).  The unconditional spec sentence fails: a candidate whose name
and alias both substring-match collects +16 and outranks the exact match
(see the counterexample). -/
theorem search_exact_vs_substring
    (c : LocationCache) (t L M : String) (limit : ℕ)
    (hwf : ∀ kv ∈ c.locations, (Prod.snd kv).id = kv.1)
    (hL : L ∈ dictGetD c.name_index (pyLower t) [])
    (hM : M ∉ dictGetD c.name_index (pyLower t) [])
    (hocc : subOcc c (pyLower t) M ≤ 1) :
    15 ≤ scoreOf (LocationCache.placeTermScores c [] t) L ∧
    scoreOf (LocationCache.placeTermScores c [] t) M ≤ 8 ∧
    ∀ (i j : ℕ) (hi : i < (c.search [t] [] [] [] "" limit).length)
      (hj : j < (c.search [t] [] [] [] "" limit).length),
      ((c.search [t] [] [] [] "" limit).get ⟨i, hi⟩).location.id = L →
      ((c.search [t] [] [] [] "" limit).get ⟨j, hj⟩).location.id = M →
      i < j := by
  have hscoreL : 15 ≤ scoreOf (LocationCache.placeTermScores c [] t) L := by
    rw [scoreOf_placeTermScores]
    have h0 : scoreOf ([] : LocationCache.ScoreMap) L = 0 := rfl
    rw [h0, if_pos hL]
    have hcount : 0 < (dictGetD c.name_index (pyLower t) []).count L :=
      List.count_pos_iff.mpr hL
    have hq : (1 : ℚ) ≤ ((dictGetD c.name_index (pyLower t) []).count L :
        ℚ) := by
      exact_mod_cast hcount
    linarith
  have hscoreM : scoreOf (LocationCache.placeTermScores c [] t) M ≤ 8 := by
    rw [scoreOf_placeTermScores]
    have h0 : scoreOf ([] : LocationCache.ScoreMap) M = 0 := rfl
    have hcnt : (dictGetD c.name_index (pyLower t) []).count M = 0 :=
      List.count_eq_zero.mpr hM
    rw [h0, hcnt, if_neg hM]
    have hq : ((subOcc c (pyLower t) M : ℕ) : ℚ) ≤ 1 := by
      exact_mod_cast hocc
    push_cast
    linarith
  refine ⟨hscoreL, hscoreM, ?_⟩
  intro i j hi hj hiL hjM
  have hpw := search_out_pairwise c t limit
  have hri : ((c.search [t] [] [] [] "" limit).get ⟨i, hi⟩).score =
      scoreOf (LocationCache.placeTermScores c [] t) L := by
    rw [← hiL]
    exact search_result_score c t limit hwf _
      (List.get_mem (c.search [t] [] [] [] "" limit) i hi)
  have hrj : ((c.search [t] [] [] [] "" limit).get ⟨j, hj⟩).score =
      scoreOf (LocationCache.placeTermScores c [] t) M := by
    rw [← hjM]
    exact search_result_score c t limit hwf _
      (List.get_mem (c.search [t] [] [] [] "" limit) j hj)
  by_contra hnot
  push_neg at hnot
  rcases lt_or_eq_of_le hnot with hlt | heq
  · have hle := (List.pairwise_iff_get.mp hpw) ⟨j, hj⟩ ⟨i, hi⟩ hlt
    rw [hri, hrj] at hle
    linarith
  · subst heq
    have hLM : L = M := by
      rw [← hiL]
      exact hjM
    exact hM (hLM ▸ hL)

/-- C4 counterexample: location "y" (name "xa", alias "xb") collects two +8
substring awards for the term "x" (total 16) and is ranked before the
location exactly named "x" (score 15), refuting the unconditional
"exact match ranks first" sentence. -/
theorem search_exact_rank_counterexample :
    subLocX.name = "x" ∧ subLocY.name = "xa" ∧ subLocY.aliases = ["xb"] ∧
    (subCache.search ["x"] [] [] [] "" 10).map
      (fun r => r.location.id) = ["y", "x"] := by
  refine ⟨rfl, rfl, rfl, ?_⟩
  with_unfolding_all decide

/-- C4 witness: the amended statement instantiated at the two-location
gazetteer where "z" (name "xa", no alias) has a single substring match. -/
theorem search_exact_vs_substring_witness :
    15 ≤ scoreOf (LocationCache.placeTermScores subCacheW [] "x") "x" ∧
    scoreOf (LocationCache.placeTermScores subCacheW [] "x") "z" ≤ 8 ∧
    ∀ (i j : ℕ) (hi : i < (subCacheW.search ["x"] [] [] [] "" 10).length)
      (hj : j < (subCacheW.search ["x"] [] [] [] "" 10).length),
      ((subCacheW.search ["x"] [] [] [] "" 10).get
        ⟨i, hi⟩).location.id = "x" →
      ((subCacheW.search ["x"] [] [] [] "" 10).get
        ⟨j, hj⟩).location.id = "z" →
      i < j :=
  search_exact_vs_substring subCacheW "x" "x" "z" 10
    (by with_unfolding_all decide) (by with_unfolding_all decide)
    (by with_unfolding_all decide) (by with_unfolding_all decide)

/-! ## C3: candidate counts in `generate_candidates` -/

lemma length_insertDesc {α : Type} (key : α → ℚ) (x : α) (l : List α) :
    (insertDesc key x l).length = l.length + 1 := by
  induction l with
  | nil => rfl
  | cons y ys ih =>
    unfold insertDesc
    by_cases h : key y < key x
    · simp [h]
    · simp [h, ih]

lemma length_sortOnDesc {α : Type} (key : α → ℚ) (l : List α) :
    (sortOnDesc key l).length = l.length := by
  unfold sortOnDesc
  induction l with
  | nil => rfl
  | cons y ys ih => simp [length_insertDesc, ih]

lemma length_dest_candidates_one (c : LocationCache) (rc : RouteCache)
    (origin : Coordinates) (extraction : DestinationExtraction)
    (current_time : ℤ) (hc : c.locations ≠ []) :
    (CachedRouteGenerator.generate_destination_candidates c rc origin
      extraction 1 current_time).length = 1 := by
  have hn : 0 < c.locations.length := List.length_pos.mpr hc
  cases hs : c.search extraction.place_names extraction.facility_types
      extraction.amenities extraction.atmosphere "" (1 * 2) with
  | nil =>
    simp only [CachedRouteGenerator.generate_destination_candidates, hs]
    simp [List.length_take, length_sortOnDesc, LocationCache.get_all,
      List.enum_length]
    omega
  | cons r rest =>
    simp only [CachedRouteGenerator.generate_destination_candidates, hs]
    simp [List.length_take, List.enum_length]

lemma length_of_map_singleton (g : Option String → RouteFeatures)
    (X : Except Unit (Option String)) (l : List RouteFeatures)
    (h : X.map (fun cp => [g cp]) = .ok l) : l.length = 1 := by
  cases X with
  | error e => simp [Except.map] at h
  | ok cp =>
    simp only [Except.map, Except.ok.injEq] at h
    rw [← h]
    rfl

/-- C3: `generate_candidates` ignores its `count` argument entirely: the
waypoint branch returns a single candidate (when the final waypoint
resolves), and the no-waypoint branch calls the destination generator with
a hard-coded inner count of 1, so it also returns exactly one candidate
whenever the gazetteer is non-empty — never "up to `count`". -/
theorem generate_candidates_spec
    (c : LocationCache) (rc : RouteCache) (origin : Coordinates)
    (extraction : DestinationExtraction) (count : ℕ) (current_time : ℤ) :
    (∀ count2, CachedRouteGenerator.generate_candidates c rc origin
        extraction count current_time =
      CachedRouteGenerator.generate_candidates c rc origin extraction
        count2 current_time) ∧
    (extraction.waypoints = [] →
      CachedRouteGenerator.generate_candidates c rc origin extraction count
          current_time =
        .ok (CachedRouteGenerator.generate_destination_candidates c rc
          origin extraction 1 current_time)) ∧
    (c.locations ≠ [] →
      (CachedRouteGenerator.generate_destination_candidates c rc origin
        extraction 1 current_time).length = 1) ∧
    (∀ (w0 : ExtractedWaypoint) (wrest : List ExtractedWaypoint)
      (fl : Location) (l : List RouteFeatures),
      sortOnAsc (fun w => w.order) extraction.waypoints = w0 :: wrest →
      CachedRouteGenerator.resolveFinalWaypoint c
        (((w0 :: wrest).find? (fun w => decide (w.type = .final))).getD
          ((w0 :: wrest).getLast (List.cons_ne_nil w0 wrest))) = some fl →
      CachedRouteGenerator.generate_candidates c rc origin extraction count
        current_time = .ok l →
      l.length = 1) := by
  refine ⟨fun count2 => rfl, ?_, ?_, ?_⟩
  · intro he
    simp [CachedRouteGenerator.generate_candidates, he]
  · intro hc
    exact length_dest_candidates_one c rc origin extraction current_time hc
  · intro w0 wrest fl l hsort hres hok
    have hne : ¬extraction.waypoints.isEmpty = true := by
      intro h
      rw [List.isEmpty_iff] at h
      rw [h] at hsort
      simp [sortOnAsc] at hsort
    unfold CachedRouteGenerator.generate_candidates at hok
    rw [if_neg hne] at hok
    simp only [CachedRouteGenerator.generate_waypoint_routes, hsort] at hok
    rw [hres] at hok
    split at hok
    · rename_i heq
      exact Option.noConfusion heq
    · exact length_of_map_singleton _ _ l hok

/-- C3 counterexample: with four locations available and `count = 4`, the
generator still returns exactly one candidate, because the no-waypoint
branch hard-codes an inner count of 1; the destination generator invoked
with 4 would have produced four. -/
theorem generate_candidates_count_counterexample :
    c3Cache.locations.length = 4 ∧
    (CachedRouteGenerator.generate_destination_candidates c3Cache ⟨[]⟩
      ⟨0, 0⟩ (emptyExtraction "q") 4 0).length = 4 ∧
    (CachedRouteGenerator.generate_candidates c3Cache ⟨[]⟩ ⟨0, 0⟩
      (emptyExtraction "q") 4 0).map List.length = .ok 1 := by
  refine ⟨by with_unfolding_all decide, ?_, ?_⟩
  · with_unfolding_all decide
  · with_unfolding_all decide

/-- C3 witness: on the four-location gazetteer, `count` is ignored (4 vs
99), the no-waypoint branch reduces to the inner-count-1 destination
generator whose output has length 1, and the resolving waypoint input also
yields exactly one candidate. -/
theorem generate_candidates_spec_witness :
    (CachedRouteGenerator.generate_candidates c3Cache ⟨[]⟩ ⟨0, 0⟩
        (emptyExtraction "q") 4 0 =
      CachedRouteGenerator.generate_candidates c3Cache ⟨[]⟩ ⟨0, 0⟩
        (emptyExtraction "q") 99 0) ∧
    (CachedRouteGenerator.generate_candidates c3Cache ⟨[]⟩ ⟨0, 0⟩
        (emptyExtraction "q") 4 0 =
      .ok (CachedRouteGenerator.generate_destination_candidates c3Cache
        ⟨[]⟩ ⟨0, 0⟩ (emptyExtraction "q") 1 0)) ∧
    (CachedRouteGenerator.generate_destination_candidates c3Cache ⟨[]⟩
      ⟨0, 0⟩ (emptyExtraction "q") 1 0).length = 1 ∧
    c3WaypointOut.length = 1 :=
  ⟨(generate_candidates_spec c3Cache ⟨[]⟩ ⟨0, 0⟩ (emptyExtraction "q")
      4 0).1 99,
   (generate_candidates_spec c3Cache ⟨[]⟩ ⟨0, 0⟩ (emptyExtraction "q")
      4 0).2.1 rfl,
   (generate_candidates_spec c3Cache ⟨[]⟩ ⟨0, 0⟩ (emptyExtraction "q")
      4 0).2.2.1 (by with_unfolding_all decide),
   (generate_candidates_spec c3Cache ⟨[]⟩ ⟨0, 0⟩ c3ExtractionW 4 0).2.2.2
     c3Waypoint [] c3LocA c3WaypointOut (by with_unfolding_all decide)
     (by with_unfolding_all decide) (by with_unfolding_all decide)⟩

/-! ## C1: extraction-response parsing -/

lemma parse_extraction_ok_query (response q : String)
    (e : DestinationExtraction)
    (he : parseExtractionResponse response q = .ok e) :
    e.original_query = q := by
  simp only [parseExtractionResponse] at he
  repeat' split at he
  all_goals first
    | exact Except.noConfusion he
    | (injection he with h; rw [← h]; rfl)
    | skip
  all_goals
    injection he with h
    rw [← h]
    rename_i heq
    simp only [Option.bind_eq_bind] at heq
    simp only [Option.pure_def, Option.bind_eq_some, Option.some.injEq]
      at heq
    obtain ⟨w, hw, ft, hft, am, ham, at2, hat2, ac, hac, tc, htc, dp, hdp,
      hpure⟩ := heq
    rw [← hpure]

/-- C1: when `json.loads` fails on the extracted string the parser returns
the empty extraction carrying the original query, and every successful
return preserves the original query — but the method is NOT exception-free:
a response whose top-level JSON value is not an object makes
`data["original_query"] = original_query` raise a `TypeError`, which the
`except (json.JSONDecodeError, ValueError)` clause does not catch. -/
theorem parse_extraction_response_spec (response original_query : String) :
    (parseJson (extractionJsonStr response) = none →
      parseExtractionResponse response original_query =
        .ok (emptyExtraction original_query)) ∧
    (∀ e, parseExtractionResponse response original_query = .ok e →
      e.original_query = original_query) ∧
    (∀ v, parseJson (extractionJsonStr response) = some v →
      (∀ flds, v ≠ Json.obj flds) →
      parseExtractionResponse response original_query =
        .error PyErr.typeErr) := by
  refine ⟨?_, ?_, ?_⟩
  · intro hp
    simp only [parseExtractionResponse]
    rw [hp]
  · intro e he
    exact parse_extraction_ok_query response original_query e he
  · intro v hp hnv
    simp only [parseExtractionResponse]
    rw [hp]
    cases v with
    | obj flds => exact absurd rfl (hnv flds)
    | null => rfl
    | bool b => rfl
    | num q => rfl
    | str s => rfl
    | arr l => rfl

/-- C1 counterexample: a syntactically valid JSON response whose top level
is an array escapes the parser with a `TypeError` instead of returning the
empty extraction, refuting "never raises". -/
theorem parse_extraction_raises_counterexample :
    parseExtractionResponse "[1, 2, 3]" "query" = .error PyErr.typeErr := by
  with_unfolding_all decide

/-- C1 witness: an unparseable response yields the empty extraction with
the query preserved, and a parseable non-object response raises. -/
theorem parse_extraction_response_spec_witness :
    parseExtractionResponse "junk" "q" = .ok (emptyExtraction "q") ∧
    parseExtractionResponse "3" "q" = .error PyErr.typeErr :=
  ⟨(parse_extraction_response_spec "junk" "q").1
      (by with_unfolding_all rfl),
   (parse_extraction_response_spec "3" "q").2.2 (Json.num 3)
      (by with_unfolding_all rfl)
      (fun flds h => Json.noConfusion h)⟩
